import Mathlib

/-!
Verification development for the Low Expectations fantasy-league dashboard:
a shallow embedding, in Lean, of the Season Normalization & Multi-Season
Aggregation Engine (services/espn_dashboard.py, services/analytics.py,
services/payout_service.py, config/team_map.py), together with proofs of the
behavioural properties claimed for it.

Modelling conventions:
- Python floats (matchup scores, point totals, payout amounts) are modelled as
  exact rationals `ℚ`; Python's `round(x, 2)` is modelled by `round2` below
  (round-half-up on hundredths; Python uses round-half-even, which differs only
  at exact half-cent values that no property here touches).
- Python dicts are modelled as insertion-ordered association lists with
  first-occurrence lookup (`alGet`/`alSet`), matching CPython's ordered-dict
  semantics, and `defaultdict` reads are modelled by `alGetD` with the
  default value.
- Python's stable `sorted`/`list.sort` is modelled by the stable insertion sort
  `sortBy`; `reverse=True` is modelled by flipping the Boolean key comparison,
  which preserves the original order of equal keys exactly as CPython does.
- JSON fields that may be absent are `Option`-valued in the raw structures;
  `.getD` models Python's `dict.get(key, default)`.
-/

/-- Decidable lexicographic comparison of character lists by code point,
modelling Python's string ordering (used by `sorted([team1, team2])`). -/
def charListLe : List Char → List Char → Bool
  | [], _ => true
  | _ :: _, [] => false
  | c :: cs, d :: ds =>
    if c.toNat < d.toNat then true
    else if d.toNat < c.toNat then false
    else charListLe cs ds

/-- Python string `<=`, by code points. -/
def strLe (a b : String) : Bool := charListLe a.toList b.toList

/-- Python `s.startswith(p)`. -/
def strStartsWith (s p : String) : Bool := p.toList.isPrefixOf s.toList

/-- Python `s.endswith(p)`. -/
def strEndsWith (s p : String) : Bool := p.toList.isSuffixOf s.toList

/-- Model of Python's `round(x, 2)` on exact rationals: round `100*x` to the
nearest integer (half-up; Python's half-even differs only at exact half-cents)
and divide back by 100. -/
def round2 (x : ℚ) : ℚ :=
  (((200 * x.num + (x.den : ℤ)) / (2 * (x.den : ℤ)) : ℤ) : ℚ) / 100

/-- A rational that is (the cast of) an integer; every payout amount is one,
because the payout rule table holds whole-dollar amounts. -/
def IsIntQ (x : ℚ) : Prop := ∃ n : ℤ, x = (n : ℚ)

/-! ### Insertion-ordered association lists (Python dict model) -/

/-- First-occurrence lookup, as in a Python dict. -/
def alGet [DecidableEq α] : List (α × β) → α → Option β
  | [], _ => none
  | (k, v) :: rest, a => if k = a then some v else alGet rest a

/-- Lookup with default: `d.get(k, default)` / `defaultdict` read. -/
def alGetD [DecidableEq α] (m : List (α × β)) (a : α) (dflt : β) : β :=
  (alGet m a).getD dflt

/-- Dict assignment `d[k] = v`: update the existing binding in place, else
append at the end (insertion order). -/
def alSet [DecidableEq α] : List (α × β) → α → β → List (α × β)
  | [], a, v => [(a, v)]
  | (k, w) :: rest, a, v =>
    if k = a then (a, v) :: rest else (k, w) :: alSet rest a v

/-! ### Stable sorting (Python `sorted` model)

`insertBy le` inserts an element before the first list element it is
`le`-related to; `sortBy le` folds it over the list.  For a total preorder
`le`, `sortBy` is exactly a stable sort: an element coming earlier in the
input is placed before later elements with an equal key, which is CPython's
guarantee for `sorted` (and, with the comparison flipped, for
`sorted(..., reverse=True)`). -/

def insertBy (le : α → α → Bool) (x : α) : List α → List α
  | [] => [x]
  | y :: ys => if le x y then x :: y :: ys else y :: insertBy le x ys

def sortBy (le : α → α → Bool) : List α → List α
  | [] => []
  | x :: xs => insertBy le x (sortBy le xs)

/-! ### Static identity configuration (config/team_map.py) -/

/-- `TEAM_ID_MAP`: ESPN numeric team id → internal team key. -/
def TEAM_ID_MAP : List (Nat × String) :=
  [(1, "seahawks"), (2, "numbnuts"), (3, "stamford"), (4, "cmb3dan"),
   (5, "devonta"), (6, "bumcrumbs"), (7, "mitchell"), (8, "metzler"),
   (9, "kenney"), (10, "mahoms")]

/-- `OWNER_UUID_MAP`: ESPN owner UUID string → owner name. -/
def OWNER_UUID_MAP : List (String × String) :=
  [("\x7bAF006F6B-9B81-4A84-B095-9071460336CF\x7d", "Dan Costa"),
   ("\x7b8C478935-D2DF-4937-BB1D-218E38E699A7\x7d", "Greg Costa"),
   ("\x7b8265642-4B76-4353-961E-565FC38C63DB\x7d", "Scott Mackie"),
   ("\x7b145F0780-1FAE-4E55-8715-C78F7553A8F1\x7d", "Dan S"),
   ("\x7b39A92573-7DF4-4244-90DA-BFCDDB2973BB\x7d", "Joe Costa"),
   ("\x7bB073C55B-C009-46F0-95AA-0B20D243D8CA\x7d", "Phat Johnson"),
   ("\x7b4C1E58FF-3F1C-4091-9034-3918B5BA5031\x7d", "Timothy Mitchell"),
   ("\x7bEBF01626-4DE0-405A-B016-264DE0205AE1\x7d", "Andrew Flaherty")]

/-- `TEAM_TO_OWNER_MAP`: internal team key → owner display name. -/
def TEAM_TO_OWNER_MAP : List (String × String) :=
  [("seahawks", "Dan Costa"), ("numbnuts", "Greg Costa"),
   ("stamford", "Scott Mackie"), ("cmb3dan", "Dan S"),
   ("devonta", "Joe Costa"), ("bumcrumbs", "Phat Johnson"),
   ("mitchell", "Timothy Mitchell"), ("metzler", "Andrew Flaherty"),
   ("kenney", "Brian Kenney"), ("mahoms", "Connor Flaherty")]

/-! ### Identity Resolver (ESPNDashboardService._get_owner_name /
_map_team_to_owner) -/

/-- The shapes of value Python may hand to `_get_owner_name`: a string, a
dict (modelled as its string-valued fields), an integer, or `None`. -/
inductive OwnerData where
  | str (s : String)
  | obj (fields : List (String × String))
  | intVal (n : Int)
  | noneVal
deriving DecidableEq, Repr

/-- `ESPNDashboardService._get_owner_name` (espn_dashboard.py lines 264-279):
strings are looked up in `OWNER_UUID_MAP`, then brace-wrapped UUID-looking
strings become a partial-UUID label, other strings pass through; dicts use
`displayName` then `firstName` then the literal `"Unknown"`; anything else
yields `"Unknown Owner"`. -/
def get_owner_name (ownerData : OwnerData) : String :=
  match ownerData with
  | .str s =>
    match alGet OWNER_UUID_MAP s with
    | some mapped => mapped
    | none =>
      if strStartsWith s "\x7b" && strEndsWith s "\x7d" then
        "Owner " ++ s.take 8 ++ "..."
      else s
  | .obj fields => alGetD fields "displayName" (alGetD fields "firstName" "Unknown")
  | .intVal _ => "Unknown Owner"
  | .noneVal => "Unknown Owner"

/-- `ESPNDashboardService._map_team_to_owner` (espn_dashboard.py lines
281-286): team id → team key → owner name, degrading to `"Unknown Owner"`. -/
def map_team_to_owner (teamId : Nat) : String :=
  match alGet TEAM_ID_MAP teamId with
  | some teamKey => alGetD TEAM_TO_OWNER_MAP teamKey "Unknown Owner"
  | none => "Unknown Owner"

/-! ### Season Fetcher (ESPNDashboardService._make_request) -/

/-- What one API host attempt can produce: an HTTP response (status code,
content type, body text) or a transport-level exception message. -/
inductive HostResponse where
  | response (status : Nat) (contentType : String) (body : String)
  | transportError (msg : String)
deriving DecidableEq, Repr

/-- Substring test, modelling Python's `"application/json" in content_type`. -/
def charListContains (hay needle : List Char) : Bool :=
  match hay with
  | [] => needle.isEmpty
  | _ :: rest => needle.isPrefixOf hay || charListContains rest needle

/-- String containment by code points. -/
def strContains (hay needle : String) : Bool :=
  charListContains hay.toList needle.toList

/-- A host attempt succeeds when it returns HTTP 200 with a JSON content
type (espn_dashboard.py lines 84-86). -/
def hostSucceeds : String × HostResponse → Bool
  | (_, .response status contentType _) =>
    decide (status = 200) && strContains contentType "application/json"
  | (_, .transportError _) => false

/-- The failure message recorded for one attempt (lines 89 and 92). -/
def hostFailureMsg : String × HostResponse → String
  | (url, .response status _ _) => "HTTP " ++ toString status ++ " from " ++ url
  | (url, .transportError msg) => "Request failed for " ++ url ++ ": " ++ msg

/-- Loop body of `_make_request`: walk the host list, returning the first
200-and-JSON body, remembering only the most recent failure message. -/
def makeRequestGo : List (String × HostResponse) → Option String → Except String String
  | [], lastError =>
    .error ("All API hosts failed. Last error: " ++ lastError.getD "None")
  | attempt :: rest, _lastError =>
    if hostSucceeds attempt then
      match attempt with
      | (_, .response _ _ body) => .ok body
      | (_, .transportError _) => .ok ""
    else
      makeRequestGo rest (some (hostFailureMsg attempt))

/-- `ESPNDashboardService._make_request` (espn_dashboard.py lines 61-95),
abstracted over the outcome each host in `self.api_hosts` would produce. -/
def make_request (attempts : List (String × HostResponse)) : Except String String :=
  makeRequestGo attempts none

/-- The body a successful attempt returns. -/
def hostBody : String × HostResponse → String
  | (_, .response _ _ body) => body
  | (_, .transportError _) => ""

/-- The value `last_error` holds after walking a list of failing attempts,
starting from `le0`: the message of the most recent attempt only. -/
def lastFailureMsg (attempts : List (String × HostResponse))
    (le0 : Option String) : String :=
  match attempts with
  | [] => le0.getD "None"
  | a :: rest => lastFailureMsg rest (some (hostFailureMsg a))

/-! ### Canonical data model (the dicts built by get_season_data) -/

/-- The `"record" → "overall"` sub-object of a team, with the graceful
zero defaults `get_season_data`'s consumers apply to missing keys. -/
structure TeamRecord where
  wins : Nat
  losses : Nat
  ties : Nat
  pointsFor : ℚ
  pointsAgainst : ℚ
deriving DecidableEq, Repr

/-- The all-zero record used when the raw team has no record object. -/
def emptyTeamRecord : TeamRecord :=
  { wins := 0, losses := 0, ties := 0, pointsFor := 0, pointsAgainst := 0 }

/-- One canonical per-season team dict (espn_dashboard.py lines 190-197). -/
structure Team where
  id : Nat
  name : String
  owner : String
  record : TeamRecord
  playoff_seed : Nat
  final_rank : Nat
deriving DecidableEq, Repr

/-- One participant entry of a canonical matchup (lines 212-217). -/
structure MatchupTeam where
  id : Nat
  name : String
  owner : String
  score : ℚ
deriving DecidableEq, Repr

/-- One canonical matchup dict (lines 203-207). -/
structure Matchup where
  week : Nat
  playoff : Bool
  teams : List MatchupTeam
deriving DecidableEq, Repr

/-- The Canonical Season Record returned by `get_season_data`
(lines 179-185 and the error dict of lines 230-237). -/
structure SeasonData where
  season : Int
  teams : List Team
  matchups : List Matchup
  champion : Option Team
  runner_up : Option Team
  error : Option String
deriving DecidableEq, Repr

/-! ### Raw API views consumed by the Season Normalizer -/

/-- A raw team entry of the `mTeam` view; `Option` marks fields the API may
omit, read with `dict.get` defaults in the source. -/
structure RawTeam where
  id : Nat
  name : Option String
  location : Option String
  nickname : Option String
  record : Option TeamRecord
  playoffSeed : Option Nat
  rankCalculatedFinal : Option Nat
deriving DecidableEq, Repr

/-- The away/home side of a raw schedule entry in the `mMatchup` view. -/
structure RawSide where
  teamId : Option Nat
  totalPoints : Option ℚ
deriving DecidableEq, Repr

/-- A raw schedule entry of the `mMatchup` view. -/
structure RawScheduleEntry where
  matchupPeriodId : Nat
  playoffTierType : Option String
  away : Option RawSide
  home : Option RawSide
deriving DecidableEq, Repr

/-- `ESPNDashboardService._get_team_name` (lines 252-262) applied to a raw
team dict: `name`, else `location + " " + nickname` stripped, else
`"Team {id}"`. -/
def get_team_name (t : RawTeam) : String :=
  let locNick := ((t.location.getD "") ++ " " ++ (t.nickname.getD "")).trim
  match t.name with
  | some n => if n ≠ "" then n else if locNick ≠ "" then locNick else "Team " ++ toString t.id
  | none => if locNick ≠ "" then locNick else "Team " ++ toString t.id

/-- `_get_team_name` applied to the empty-dict default produced by
`next((t for t in teams if ...), {})`: every field missing, id rendered as
the string `"Unknown"`. -/
def get_team_name_missing : String := "Team Unknown"

/-- Normalization of one raw team into a canonical team dict
(espn_dashboard.py lines 188-198): zero defaults for every missing numeric
field, owner resolved through the static team map. -/
def normalizeTeam (t : RawTeam) : Team :=
  { id := t.id,
    name := get_team_name t,
    owner := map_team_to_owner t.id,
    record := t.record.getD emptyTeamRecord,
    playoff_seed := t.playoffSeed.getD 0,
    final_rank := t.rankCalculatedFinal.getD 0 }

/-- Build one participant entry of a matchup from a side's team id
(lines 209-217): skipped when the id is absent or 0 (Python falsiness),
the name looked up in the raw team list, the score taken from whichever
side carries this id. -/
def mkMatchupTeam (rawTeams : List RawTeam) (awayId : Option Nat)
    (awayPts homePts : ℚ) (tid : Option Nat) : Option MatchupTeam :=
  match tid with
  | none => none
  | some i =>
    if i = 0 then none
    else
      some
        { id := i,
          name :=
            match rawTeams.find? (fun t => t.id = i) with
            | some t => get_team_name t
            | none => get_team_name_missing,
          owner := map_team_to_owner i,
          score := if awayId = some i then awayPts else homePts }

/-- Normalization of one raw schedule entry (lines 201-219): entries with a
positive matchup period become a matchup whose playoff flag is exactly
`playoffTierType == "WINNERS_BRACKET"`. -/
def normalizeMatchup (rawTeams : List RawTeam) (e : RawScheduleEntry) :
    Option Matchup :=
  if 0 < e.matchupPeriodId then
    let awayId := e.away.bind (·.teamId)
    let homeId := e.home.bind (·.teamId)
    let awayPts := (e.away.bind (·.totalPoints)).getD 0
    let homePts := (e.home.bind (·.totalPoints)).getD 0
    some
      { week := e.matchupPeriodId,
        playoff := e.playoffTierType = some "WINNERS_BRACKET",
        teams :=
          (mkMatchupTeam rawTeams awayId awayPts homePts awayId).toList ++
            (mkMatchupTeam rawTeams awayId awayPts homePts homeId).toList }
  else none

/-- The sort key of the champion/runner-up computation
(line 222: `x["final_rank"] or 999`; a stored rank of 0 is falsy). -/
def rankKey (t : Team) : Nat := if t.final_rank = 0 then 999 else t.final_rank

/-- Champion and runner-up derivation (espn_dashboard.py lines 221-226):
sort by `final_rank or 999`, take the head if its rank is 1 and the second
element if its rank is 2. -/
def computeChampionRunnerUp (teams : List Team) : Option Team × Option Team :=
  match sortBy (fun a b => decide (rankKey a ≤ rankKey b)) teams with
  | [] => (none, none)
  | [t] => (if t.final_rank = 1 then some t else none, none)
  | t :: u :: _ =>
    (if t.final_rank = 1 then some t else none,
     if u.final_rank = 2 then some u else none)

/-- The try-body of `get_season_data` (lines 171-227): normalize both raw
views into one Canonical Season Record. -/
def normalizeSeason (season : Int) (rawTeams : List RawTeam)
    (schedule : List RawScheduleEntry) : SeasonData :=
  let ts := rawTeams.map normalizeTeam
  let cr := computeChampionRunnerUp ts
  { season := season,
    teams := ts,
    matchups := schedule.filterMap (normalizeMatchup rawTeams),
    champion := cr.1,
    runner_up := cr.2,
    error := none }

/-- `ESPNDashboardService.get_season_data` (lines 169-237): the whole body is
wrapped in `try/except`, so a failed fetch (or any exception surfaced through
the `Except` input) yields the empty-with-error record of lines 230-237 and
is never re-raised. -/
def get_season_data (season : Int)
    (fetched : Except String (List RawTeam × List RawScheduleEntry)) :
    SeasonData :=
  match fetched with
  | .error e =>
    { season := season, teams := [], matchups := [], champion := none,
      runner_up := none, error := some e }
  | .ok (rawTeams, schedule) => normalizeSeason season rawTeams schedule

/-- The two `_make_request` calls of `get_season_data` (lines 173-174),
abstracted over each host's behaviour per view and over the JSON decoding of
the two view bodies: the first failure aborts the fetch with its message. -/
def fetch_raw_season (teamAttempts schedAttempts : List (String × HostResponse))
    (parseTeams : String → List RawTeam)
    (parseSchedule : String → List RawScheduleEntry) :
    Except String (List RawTeam × List RawScheduleEntry) := do
  let teamBody ← make_request teamAttempts
  let schedBody ← make_request schedAttempts
  .ok (parseTeams teamBody, parseSchedule schedBody)

/-! ### Historical Aggregator (services/analytics.py) -/

/-- All valid participant scores across a history, in iteration order:
entries with a strictly positive score (analytics.py lines 36-40, 147). -/
def allValidScores (hd : List SeasonData) : List ℚ :=
  hd.flatMap (fun s =>
    s.matchups.flatMap (fun m =>
      m.teams.filterMap (fun t => if 0 < t.score then some t.score else none)))

/-- Python `max(l)` with `0` default (`max(all_scores) if all_scores else 0`). -/
def listMaxD (dflt : ℚ) : List ℚ → ℚ
  | [] => dflt
  | x :: xs => xs.foldl max x

/-- Python `min(l)` with `0` default. -/
def listMinD (dflt : ℚ) : List ℚ → ℚ
  | [] => dflt
  | x :: xs => xs.foldl min x

/-- The matchup-dependent fields of `get_dashboard_summary` (analytics.py
lines 25-62); the champion-related and current-season fields live outside
the matchup data and are not modelled here. -/
structure DashboardScoreSummary where
  total_seasons : Nat
  total_games : Nat
  highest_score_ever : ℚ
  lowest_score_ever : ℚ
  average_score : ℚ
deriving DecidableEq, Repr

/-- `AnalyticsService.get_dashboard_summary`, matchup-dependent part:
`total_games` counts every matchup dict, the score aggregates are over
valid (score > 0) entries with `0` fallbacks. -/
def get_dashboard_summary (hd : List SeasonData) : DashboardScoreSummary :=
  let allScores := allValidScores hd
  { total_seasons := hd.length,
    total_games := (hd.map (fun s => s.matchups.length)).sum,
    highest_score_ever := round2 (listMaxD 0 allScores),
    lowest_score_ever := round2 (listMinD 0 allScores),
    average_score :=
      round2 (if allScores.isEmpty then 0 else allScores.sum / allScores.length) }

/-- One scored-entry record of `get_scoring_stats` (analytics.py lines
148-155). -/
structure ScoreRecord where
  score : ℚ
  team_name : String
  team_id : Nat
  season : Int
  week : Nat
  is_playoff : Bool
deriving DecidableEq, Repr

/-- The flattened valid scored-entry list of `get_scoring_stats`
(lines 138-158), in iteration order. -/
def allScoreRecords (hd : List SeasonData) : List ScoreRecord :=
  hd.flatMap (fun s =>
    s.matchups.flatMap (fun m =>
      m.teams.filterMap (fun t =>
        if 0 < t.score then
          some { score := t.score, team_name := t.name, team_id := t.id,
                 season := s.season, week := m.week, is_playoff := m.playoff }
        else none)))

/-- Result of `get_scoring_stats`: either the structured error dict of line
161 or the statistics (modelled fields: the top/bottom-10 lists and the
overall games/average/range; the weekly-average and season-leader tables and
the irrational standard deviation are not referenced by any property). -/
inductive ScoringStatsResult where
  | err (msg : String)
  | ok (highest_scores lowest_scores : List ScoreRecord)
      (total_games : Nat) (average_score : ℚ) (score_range : ℚ)
deriving DecidableEq, Repr

/-- `AnalyticsService.get_scoring_stats` (analytics.py lines 129-222):
returns the error dict when no valid score exists anywhere, else sorts the
flattened entries (stable, descending / ascending) and aggregates. -/
def get_scoring_stats (hd : List SeasonData) : ScoringStatsResult :=
  let allScores := allScoreRecords hd
  if allScores.isEmpty then .err "No scoring data available"
  else
    let sortedDesc := sortBy (fun x y => decide (y.score ≤ x.score)) allScores
    let sortedAsc := sortBy (fun x y => decide (x.score ≤ y.score)) allScores
    let scoresOnly := allScores.map (·.score)
    .ok (sortedDesc.take 10) (sortedAsc.take 10) allScores.length
      (round2 (scoresOnly.sum / scoresOnly.length))
      (round2 (listMaxD 0 scoresOnly - listMinD 0 scoresOnly))

/-- The per-team record view built by `get_season_stats` (analytics.py lines
249-258), with the `dict.get` zero defaults. -/
structure TeamRecView where
  name : String
  wins : Nat
  losses : Nat
  points_for : ℚ
  points_against : ℚ
deriving DecidableEq, Repr

/-- Python `max(values, key=f)`: the first element attaining the maximum
(later elements replace only on strictly greater key). -/
def maxByFirst (lt : α → α → Bool) : List α → Option α
  | [] => none
  | x :: xs => some (xs.foldl (fun best y => if lt best y then y else best) x)

/-- Python `min(values, key=f)`: the first element attaining the minimum. -/
def minByFirst (lt : α → α → Bool) : List α → Option α
  | [] => none
  | x :: xs => some (xs.foldl (fun best y => if lt y best then y else best) x)

/-- One per-season stats dict of `get_season_stats` (lines 268-282). -/
structure SeasonStat where
  season : Int
  total_teams : Nat
  total_games : Nat
  playoff_games : Nat
  average_score : ℚ
  highest_score : ℚ
  lowest_score : ℚ
  best_record : Option TeamRecView
  worst_record : Option TeamRecView
  highest_scoring_team : Option TeamRecView
  lowest_scoring_team : Option TeamRecView
  champion : Option Team
  runner_up : Option Team
deriving DecidableEq, Repr

/-- The `team_records` dict of `get_season_stats` (lines 248-258), keyed by
team id in insertion order. -/
def teamRecordsOf (teams : List Team) : List (Nat × TeamRecView) :=
  teams.foldl
    (fun m t =>
      alSet m t.id
        { name := t.name, wins := t.record.wins, losses := t.record.losses,
          points_for := t.record.pointsFor,
          points_against := t.record.pointsAgainst })
    []

/-- The per-season body of `get_season_stats` (analytics.py lines 230-284):
seasons with no teams or no matchups are skipped (`continue`). -/
def seasonStatsFor (sd : SeasonData) : Option SeasonStat :=
  if sd.teams.isEmpty || sd.matchups.isEmpty then none
  else
    let seasonScores :=
      sd.matchups.flatMap (fun m =>
        m.teams.filterMap (fun t => if 0 < t.score then some t.score else none))
    let recs := (teamRecordsOf sd.teams).map (·.2)
    some
      { season := sd.season,
        total_teams := sd.teams.length,
        total_games := (sd.matchups.filter (fun m => !m.playoff)).length,
        playoff_games := (sd.matchups.filter (fun m => m.playoff)).length,
        average_score :=
          if seasonScores.isEmpty then 0
          else round2 (seasonScores.sum / seasonScores.length),
        highest_score :=
          if seasonScores.isEmpty then 0 else round2 (listMaxD 0 seasonScores),
        lowest_score :=
          if seasonScores.isEmpty then 0 else round2 (listMinD 0 seasonScores),
        best_record := maxByFirst (fun a b => decide (a.wins < b.wins)) recs,
        worst_record := minByFirst (fun a b => decide (a.wins < b.wins)) recs,
        highest_scoring_team :=
          maxByFirst (fun a b => decide (a.points_for < b.points_for)) recs,
        lowest_scoring_team :=
          minByFirst (fun a b => decide (a.points_for < b.points_for)) recs,
        champion := sd.champion,
        runner_up := sd.runner_up }

/-- `AnalyticsService.get_season_stats` (lines 224-291): collect the
per-season stats then sort by season, descending, stably. -/
def get_season_stats (hd : List SeasonData) : List SeasonStat :=
  sortBy (fun x y => decide (y.season ≤ x.season)) (hd.filterMap seasonStatsFor)

/-- The playoff-appearance test of `get_all_time_stats` (analytics.py line
334): playoff seed strictly positive OR final rank at most 6 (both fields
always present on canonical teams; the `get` defaults 0 and 99 never fire). -/
def isPlayoffAppearance (t : Team) : Bool :=
  decide (0 < t.playoff_seed) || decide (t.final_rank ≤ 6)

/-- The `playoff_appearances` counter an owner accumulates in
`get_all_time_stats` (lines 316-335): one per canonical team of that owner
passing the playoff test, over every season. -/
def playoffAppearances (hd : List SeasonData) (owner : String) : Nat :=
  (hd.flatMap (·.teams)).countP
    (fun t => decide (t.owner = owner) && isPlayoffAppearance t)

/-! ### Head-to-head statistics (analytics.py lines 401-479) -/

/-- One direction's head-to-head tally (the defaultdict leaf of line 406). -/
structure H2HRecord where
  wins : Nat
  losses : Nat
  points_for : ℚ
  points_against : ℚ
  games : Nat
deriving DecidableEq, Repr

/-- The zero tally a defaultdict read creates. -/
def emptyH2H : H2HRecord :=
  { wins := 0, losses := 0, points_for := 0, points_against := 0, games := 0 }

/-- The nested `h2h_records` defaultdict: team name → team name → tally. -/
abbrev H2HMap := List (String × List (String × H2HRecord))

/-- Read `h2h_records[a][b]` (with defaultdict zero defaults). -/
def getRec (m : H2HMap) (a b : String) : H2HRecord :=
  alGetD (alGetD m a []) b emptyH2H

/-- Whether `h2h_records` holds an entry for the ordered pair `(a, b)`. -/
def hasPair (m : H2HMap) (a b : String) : Bool :=
  match alGet m a with
  | some inner => (alGet inner b).isSome
  | none => false

/-- Mutate `h2h_records[a][b]` through `f`, creating the entry on demand
exactly as the nested defaultdict does. -/
def h2hUpdate (m : H2HMap) (a b : String) (f : H2HRecord → H2HRecord) : H2HMap :=
  let inner := alGetD m a []
  alSet m a (alSet inner b (f (alGetD inner b emptyH2H)))

/-- The accumulation performed for one valid matchup between names `n1`
(away, score `s1`) and `n2` (home, score `s2`): games and points both ways,
then a win for `n1` exactly when `s1 > s2` — on equality the `else` branch
credits the win to `n2` (analytics.py lines 418-432). -/
def h2hAddValid (m : H2HMap) (n1 n2 : String) (s1 s2 : ℚ) : H2HMap :=
  let m1 := h2hUpdate m n1 n2 (fun r => { r with games := r.games + 1 })
  let m2 := h2hUpdate m1 n2 n1 (fun r => { r with games := r.games + 1 })
  let m3 := h2hUpdate m2 n1 n2 (fun r =>
    { r with points_for := r.points_for + round2 s1,
             points_against := r.points_against + round2 s2 })
  let m4 := h2hUpdate m3 n2 n1 (fun r =>
    { r with points_for := r.points_for + round2 s2,
             points_against := r.points_against + round2 s1 })
  if s2 < s1 then
    let m5 := h2hUpdate m4 n1 n2 (fun r => { r with wins := r.wins + 1 })
    h2hUpdate m5 n2 n1 (fun r => { r with losses := r.losses + 1 })
  else
    let m5 := h2hUpdate m4 n2 n1 (fun r => { r with wins := r.wins + 1 })
    h2hUpdate m5 n1 n2 (fun r => { r with losses := r.losses + 1 })

/-- Process one matchup (analytics.py lines 409-432): only matchups with
exactly two participant entries, both with strictly positive scores, count. -/
def h2hAddMatchup (m : H2HMap) (mu : Matchup) : H2HMap :=
  match mu.teams with
  | [t1, t2] =>
    if 0 < t1.score ∧ 0 < t2.score then
      h2hAddValid m t1.name t2.name t1.score t2.score
    else m
  | _ => m

/-- The fully accumulated `h2h_records` over a history (lines 408-432). -/
def h2hRecords (hd : List SeasonData) : H2HMap :=
  (hd.flatMap (·.matchups)).foldl h2hAddMatchup []

/-- One output entry of the head-to-head report (lines 451-469). -/
structure H2HEntry where
  team1 : String
  team2 : String
  team1_wins : Nat
  team2_wins : Nat
  total_games : Nat
  team1_points : ℚ
  team2_points : ℚ
  team1_avg : ℚ
  team2_avg : ℚ
  series_leader : String
deriving DecidableEq, Repr

/-- `tuple(sorted([team1, team2]))`: the canonical unordered-pair key. -/
def pairKey (a b : String) : String × String :=
  if strLe a b then (a, b) else (b, a)

/-- Build the output entry for ordered pair `(t1, t2)` from the accumulated
records (lines 446-469): `total_games` is taken from direction `t1 → t2`,
and the series leader is whichever side has strictly more wins, the literal
`"Tied"` on equality. -/
def mkH2HEntry (m : H2HMap) (t1 t2 : String) : H2HEntry :=
  let r1 := getRec m t1 t2
  let r2 := getRec m t2 t1
  { team1 := t1, team2 := t2,
    team1_wins := r1.wins, team2_wins := r2.wins,
    total_games := r1.games,
    team1_points := round2 r1.points_for,
    team2_points := round2 r2.points_for,
    team1_avg := round2 (r1.points_for / (r1.games : ℚ)),
    team2_avg := round2 (r2.points_for / (r1.games : ℚ)),
    series_leader :=
      if r2.wins < r1.wins then t1
      else if r1.wins < r2.wins then t2
      else "Tied" }

/-- The conversion loop of lines 435-471 over the flattened list of ordered
name pairs: skip identical names, de-duplicate through `processed_pairs`
(the pair is recorded before the `total_games > 0` check, exactly as in the
source), and emit an entry only for a pair with at least one game. -/
def h2hEmit (m : H2HMap) :
    List (String × String) → List (String × String) → List H2HEntry →
    List H2HEntry
  | [], _, acc => acc
  | (t1, t2) :: rest, processed, acc =>
    if t1 ≠ t2 then
      let p := pairKey t1 t2
      if p ∈ processed then h2hEmit m rest processed acc
      else
        if 0 < (getRec m t1 t2).games then
          h2hEmit m rest (p :: processed) (acc ++ [mkH2HEntry m t1 t2])
        else h2hEmit m rest (p :: processed) acc
    else h2hEmit m rest processed acc

/-- The ordered pairs enumerated by the nested `for team1 ... for team2`
loops, in dict iteration order. -/
def h2hPairs (m : H2HMap) : List (String × String) :=
  m.flatMap (fun x => x.2.map (fun y => (x.1, y.1)))

/-- `AnalyticsService.get_head_to_head_stats` (analytics.py lines 401-479):
accumulate, convert with de-duplication, then sort by total games played,
descending, stably. -/
def get_head_to_head_stats (hd : List SeasonData) : List H2HEntry :=
  let m := h2hRecords hd
  sortBy (fun x y => decide (y.total_games ≤ x.total_games))
    (h2hEmit m (h2hPairs m) [] [])

/-- Whether a matchup is a valid meeting of the (distinct) display names
`a` and `b`: exactly two participants, both scores strictly positive, and
the two names are `a` and `b` in either order. -/
def meets (a b : String) (mu : Matchup) : Bool :=
  match mu.teams with
  | [t1, t2] =>
    (decide (0 < t1.score) && decide (0 < t2.score)) &&
      ((decide (t1.name = a) && decide (t2.name = b)) ||
       (decide (t1.name = b) && decide (t2.name = a)))
  | _ => false

/-- How many valid meetings of names `a` and `b` a history contains. -/
def metCount (hd : List SeasonData) (a b : String) : Nat :=
  (hd.flatMap (·.matchups)).countP (meets a b)

/-! ### Payout Engine (services/payout_service.py) -/

/-- `PayoutService.PAYOUT_STRUCTURE` (payout_service.py lines 16-23). -/
def PAYOUT_CHAMPION : ℚ := 300
def PAYOUT_RUNNER_UP : ℚ := 150
def PAYOUT_THIRD_PLACE : ℚ := 70
def PAYOUT_FOURTH_PLACE : ℚ := 50
def PAYOUT_WEEKLY_HIGH : ℚ := 10
def PAYOUT_MOST_POINTS_REGULAR : ℚ := 40

/-- `PayoutService._get_owner_name` (payout_service.py lines 35-52) applied
to a canonical team dict: the resolved owner when truthy and not the literal
`"Unknown"`, else the static team map, else `"Team {id}"` /
`"Unknown Team"`. -/
def payout_owner_name (owner : String) (id : Nat) : String :=
  if owner ≠ "" ∧ owner ≠ "Unknown" then owner
  else
    if id ≠ 0 then
      match alGet TEAM_ID_MAP id with
      | some teamKey => alGetD TEAM_TO_OWNER_MAP teamKey ("Team " ++ toString id)
      | none => "Team " ++ toString id
    else "Unknown Team"

/-- `_get_owner_name` on a canonical team. -/
def ownerNameOfTeam (t : Team) : String := payout_owner_name t.owner t.id

/-- `_get_owner_name` on a matchup participant entry. -/
def ownerNameOfMatchupTeam (t : MatchupTeam) : String :=
  payout_owner_name t.owner t.id

/-- One itemized ledger line (the dicts of lines 78-117, 139-143, 180-184). -/
structure PayoutDetail where
  ptype : String
  amount : ℚ
  description : String
deriving DecidableEq, Repr

/-- The accumulation state of `calculate_season_payouts`: the `payouts`
defaultdict (owner → running total) and the `payout_details` defaultdict
(owner → ledger lines), both insertion-ordered. -/
structure PayState where
  payouts : List (String × ℚ)
  details : List (String × List PayoutDetail)
deriving DecidableEq, Repr

/-- `payouts[owner] += amount; payout_details[owner].append(detail)`. -/
def addPayout (st : PayState) (owner : String) (amount : ℚ)
    (detail : PayoutDetail) : PayState :=
  { payouts := alSet st.payouts owner (alGetD st.payouts owner 0 + amount),
    details := alSet st.details owner (alGetD st.details owner [] ++ [detail]) }

/-- Step 1 of `calculate_season_payouts` (lines 71-91): champion and
runner-up amounts. -/
def payoutChampRunnerUp (sd : SeasonData) (st : PayState) : PayState :=
  let st1 :=
    match sd.champion with
    | some c =>
      addPayout st (ownerNameOfTeam c) PAYOUT_CHAMPION
        { ptype := "Champion", amount := PAYOUT_CHAMPION,
          description := toString sd.season ++ " League Champion" }
    | none => st
  match sd.runner_up with
  | some r =>
    addPayout st1 (ownerNameOfTeam r) PAYOUT_RUNNER_UP
      { ptype := "Runner-Up", amount := PAYOUT_RUNNER_UP,
        description := toString sd.season ++ " Runner-Up" }
  | none => st1

/-- The standings sort of lines 96-97: canonical teams always carry a
`final_rank` key, so `x.get("final_rank", x.get("playoff_seed", 99))` always
reads the stored final rank (a stored 0 sorts first; the playoff-seed
fallback is dead code on canonical records). -/
def payoutSortedTeams (teams : List Team) : List Team :=
  sortBy (fun a b => decide (a.final_rank ≤ b.final_rank)) teams

/-- Step 1b of `calculate_season_payouts` (lines 93-117): third and fourth
place by position in the sorted standings. -/
def payoutThirdFourth (sd : SeasonData) (st : PayState) : PayState :=
  if sd.teams.isEmpty then st
  else
    let sorted := payoutSortedTeams sd.teams
    let st1 :=
      match sorted[2]? with
      | some third =>
        addPayout st (ownerNameOfTeam third) PAYOUT_THIRD_PLACE
          { ptype := "3rd Place", amount := PAYOUT_THIRD_PLACE,
            description := toString sd.season ++ " 3rd Place" }
      | none => st
    match sorted[3]? with
    | some fourth =>
      addPayout st1 (ownerNameOfTeam fourth) PAYOUT_FOURTH_PLACE
        { ptype := "4th Place", amount := PAYOUT_FOURTH_PLACE,
          description := toString sd.season ++ " 4th Place" }
    | none => st1

/-- The `regular_season_totals` defaultdict (lines 120-133): owner → summed
rounded scores over valid entries of non-playoff matchups. -/
def regularSeasonTotals (sd : SeasonData) : List (String × ℚ) :=
  (sd.matchups.filter (fun m => !m.playoff)).foldl
    (fun acc m =>
      m.teams.foldl
        (fun acc t =>
          if 0 < t.score then
            alSet acc (ownerNameOfMatchupTeam t)
              (alGetD acc (ownerNameOfMatchupTeam t) 0 + round2 t.score)
          else acc)
        acc)
    []

/-- Python `max(d.keys(), key=lambda x: d[x])` over an insertion-ordered
dict: the first key attaining the maximal value. -/
def maxKeyByValue (totals : List (String × ℚ)) : Option (String × ℚ) :=
  match totals with
  | [] => none
  | (k, v) :: rest =>
    some (rest.foldl (fun best p => if best.2 < p.2 then p else best) (k, v))

/-- Step 2 of `calculate_season_payouts` (lines 119-143): the most-points
award to the (first) strict-maximum owner of the regular season. -/
def payoutMostPoints (sd : SeasonData) (st : PayState) : PayState :=
  match maxKeyByValue (regularSeasonTotals sd) with
  | some (topScorer, _) =>
    addPayout st topScorer PAYOUT_MOST_POINTS_REGULAR
      { ptype := "Most Points (Regular)", amount := PAYOUT_MOST_POINTS_REGULAR,
        description := toString sd.season ++ " Most Points in Regular Season" }
  | none => st

/-- The per-week high tracked by lines 146-168 (`owner` is `None` until a
positive score is seen). -/
structure WeeklyHigh where
  owner : Option String
  score : ℚ
deriving DecidableEq, Repr

/-- Process one matchup for the weekly-highs dict (lines 149-168): weeks
`<= 0` are skipped, a week's entry is created at `(None, 0)` when the week
has at least one valid entry, then each valid entry with a strictly greater
score takes the lead. -/
def weeklyHighStep (whs : List (Nat × WeeklyHigh)) (m : Matchup) :
    List (Nat × WeeklyHigh) :=
  if m.week = 0 then whs
  else
    let weekScores :=
      m.teams.filterMap (fun t =>
        if 0 < t.score then some (ownerNameOfMatchupTeam t, t.score) else none)
    if weekScores.isEmpty then whs
    else
      let init := alGetD whs m.week { owner := none, score := 0 }
      let best := weekScores.foldl
        (fun best p => if best.score < p.2 then { owner := some p.1, score := p.2 } else best)
        init
      alSet whs m.week best

/-- The fully accumulated `weekly_highs` dict of one season. -/
def weeklyHighs (sd : SeasonData) : List (Nat × WeeklyHigh) :=
  sd.matchups.foldl weeklyHighStep []

/-- Steps 3a/3b of `calculate_season_payouts` (lines 170-184): award one
weekly-high amount per won week (an empty owner string is falsy and skipped),
then append one aggregated ledger line per owner. -/
def payoutWeekly (sd : SeasonData) (st : PayState) : PayState :=
  let whs := weeklyHighs sd
  let counts :=
    whs.foldl
      (fun acc p =>
        match p.2.owner with
        | some o => if o ≠ "" then alSet acc o (alGetD acc o 0 + 1) else acc
        | none => acc)
      ([] : List (String × Nat))
  let payouts :=
    counts.foldl
      (fun acc p => alSet acc p.1 (alGetD acc p.1 0 + p.2 * PAYOUT_WEEKLY_HIGH))
      st.payouts
  let details :=
    counts.foldl
      (fun acc p =>
        alSet acc p.1
          (alGetD acc p.1 [] ++
            [{ ptype := "Weekly High Scores",
               amount := p.2 * PAYOUT_WEEKLY_HIGH,
               description := toString p.2 ++ " Weekly High Scores x $10" }]))
      st.details
  { payouts := payouts, details := details }

/-- The final accumulation state of `calculate_season_payouts` for one
canonical season record. -/
def seasonPayState (sd : SeasonData) : PayState :=
  payoutWeekly sd
    (payoutMostPoints sd
      (payoutThirdFourth sd
        (payoutChampRunnerUp sd { payouts := [], details := [] })))

/-- One owner's row of the `payouts` list (lines 190-196). -/
structure OwnerPayout where
  owner : String
  total_payout : ℚ
  details : List PayoutDetail
deriving DecidableEq, Repr

/-- The result dict of `calculate_season_payouts` (lines 201-210); the
`weekly_highs` and `regular_season_leader` fields are carried for
faithfulness of shape. -/
structure SeasonPayoutResult where
  season : Int
  payouts : List OwnerPayout
  season_total : ℚ
  weekly_highs : List (Nat × WeeklyHigh)
deriving DecidableEq, Repr

/-- `PayoutService.calculate_season_payouts` on a found season record
(lines 54-210): build the ledger, total it, and sort the per-owner rows by
total payout, descending, stably. -/
def calcSeasonPayouts (sd : SeasonData) : SeasonPayoutResult :=
  let st := seasonPayState sd
  let payoutList :=
    st.payouts.map (fun p =>
      { owner := p.1, total_payout := round2 p.2,
        details := alGetD st.details p.1 [] })
  { season := sd.season,
    payouts :=
      sortBy (fun x y => decide (y.total_payout ≤ x.total_payout)) payoutList,
    season_total := round2 (st.payouts.map (·.2)).sum,
    weekly_highs := weeklyHighs sd }

/-- `calculate_season_payouts` including the lookup of lines 57-66: the
first record with the requested season, else the structured error result. -/
def calculate_season_payouts (hd : List SeasonData) (season : Int) :
    Except String SeasonPayoutResult :=
  match hd.find? (fun sd => decide (sd.season = season)) with
  | some sd => .ok (calcSeasonPayouts sd)
  | none => .error ("No data found for season " ++ toString season)

/-- `PayoutService.get_all_season_payouts` (lines 212-236): one result per
historical record strictly before the configured current season (error
results are dropped), sorted by season, descending, stably. -/
def get_all_season_payouts (hd : List SeasonData) (currentSeason : Int) :
    List SeasonPayoutResult :=
  sortBy (fun x y => decide (y.season ≤ x.season))
    (hd.filterMap (fun sd =>
      if sd.season < currentSeason then
        match calculate_season_payouts hd sd.season with
        | .ok r => some r
        | .error _ => none
      else none))

/-- Leading-digits parse of a weekly-high description
(`int(desc.split()[0]) if desc.split()[0].isdigit() else 0`, line 281). -/
def leadingNat (desc : String) : Nat :=
  let w := (desc.splitOn " ").headD ""
  if w ≠ "" ∧ w.toList.all Char.isDigit then
    w.toList.foldl (fun n c => n * 10 + (c.toNat - 48)) 0
  else 0

/-- One owner's cumulative row (lines 241-251). -/
structure CumulativeOwner where
  owner : String
  total_earnings : ℚ
  championships : Nat
  runner_ups : Nat
  third_places : Nat
  fourth_places : Nat
  weekly_high_count : Nat
  most_points_regular : Nat
  seasons_participated : Nat
deriving DecidableEq, Repr

/-- Fold one ledger line into an owner's cumulative category counts
(lines 269-284). -/
def cumulAddDetail (c : CumulativeOwner) (d : PayoutDetail) : CumulativeOwner :=
  if d.ptype = "Champion" then { c with championships := c.championships + 1 }
  else if d.ptype = "Runner-Up" then { c with runner_ups := c.runner_ups + 1 }
  else if d.ptype = "3rd Place" then { c with third_places := c.third_places + 1 }
  else if d.ptype = "4th Place" then { c with fourth_places := c.fourth_places + 1 }
  else if d.ptype = "Weekly High Scores" then
    { c with weekly_high_count := c.weekly_high_count + leadingNat d.description }
  else if d.ptype = "Most Points (Regular)" then
    { c with most_points_regular := c.most_points_regular + 1 }
  else c

/-- The empty cumulative row the defaultdict creates for a new owner. -/
def emptyCumulativeOwner (owner : String) : CumulativeOwner :=
  { owner := owner, total_earnings := 0, championships := 0, runner_ups := 0,
    third_places := 0, fourth_places := 0, weekly_high_count := 0,
    most_points_regular := 0, seasons_participated := 0 }

/-- Fold one owner's season payout row into the cumulative dict
(lines 259-284): rows with a zero total are skipped. -/
def cumulAddPayout (acc : List (String × CumulativeOwner)) (p : OwnerPayout) :
    List (String × CumulativeOwner) :=
  if 0 < p.total_payout then
    let c0 := alGetD acc p.owner (emptyCumulativeOwner p.owner)
    let c1 := { c0 with
      total_earnings := c0.total_earnings + p.total_payout,
      seasons_participated := c0.seasons_participated + 1 }
    alSet acc p.owner (p.details.foldl cumulAddDetail c1)
  else acc

/-- The result of `get_cumulative_payouts` (lines 298-303); the per-owner
rows keep dict insertion order before the final earnings sort. -/
structure CumulativeResult where
  cumulative_payouts : List CumulativeOwner
  total_league_payouts : ℚ
deriving DecidableEq, Repr

/-- `PayoutService.get_cumulative_payouts` (lines 238-303): fold every
completed season's summary into per-owner lifetime rows and a league total,
then sort the rows by total earnings, descending, stably. -/
def get_cumulative_payouts (hd : List SeasonData) (currentSeason : Int) :
    CumulativeResult :=
  let seasons := get_all_season_payouts hd currentSeason
  let cumul :=
    seasons.foldl (fun acc s => s.payouts.foldl cumulAddPayout acc) []
  { cumulative_payouts :=
      sortBy (fun x y => decide (y.total_earnings ≤ x.total_earnings))
        ((cumul.map (·.2)).map (fun c =>
          { c with total_earnings := round2 c.total_earnings })),
    total_league_payouts := round2 (seasons.map (·.season_total)).sum }

/-! ### Concrete example data used by witnesses and counterexamples -/

/-- Away participant of the week-1 example matchup: "Alpha", 150 points. -/
def exAway : MatchupTeam :=
  { id := 1, name := "Alpha", owner := "Dan Costa", score := 150 }

/-- Home participant of the week-1 example matchup: "Beta", 100 points. -/
def exHome : MatchupTeam :=
  { id := 2, name := "Beta", owner := "Greg Costa", score := 100 }

/-- A one-season history holding one valid matchup, Alpha 150 - Beta 100. -/
def exHistory : List SeasonData :=
  [{ season := 2022, teams := [],
     matchups := [{ week := 1, playoff := false, teams := [exAway, exHome] }],
     champion := none, runner_up := none, error := none }]

/-- Away participant of the drawn example matchup: "Alpha", 100 points. -/
def exTieAway : MatchupTeam :=
  { id := 1, name := "Alpha", owner := "Dan Costa", score := 100 }

/-- Home participant of the drawn example matchup: "Beta", 100 points. -/
def exTieHome : MatchupTeam :=
  { id := 2, name := "Beta", owner := "Greg Costa", score := 100 }

/-- A week-3 matchup drawn 100-100. -/
def exTieMatchup : Matchup :=
  { week := 3, playoff := false, teams := [exTieAway, exTieHome] }

/-- Scenario teams with final ranks 1-4 held by four distinct owners. -/
def teamA : Team :=
  { id := 1, name := "A Team", owner := "Alice", record := emptyTeamRecord,
    playoff_seed := 1, final_rank := 1 }

def teamB : Team :=
  { id := 2, name := "B Team", owner := "Bob", record := emptyTeamRecord,
    playoff_seed := 2, final_rank := 2 }

def teamC : Team :=
  { id := 3, name := "C Team", owner := "Carol", record := emptyTeamRecord,
    playoff_seed := 3, final_rank := 3 }

def teamD : Team :=
  { id := 4, name := "D Team", owner := "Dave", record := emptyTeamRecord,
    playoff_seed := 4, final_rank := 4 }

/-- A completed season with ranks 1-4, four owners, and no matchups, with
champion and runner-up set the way `get_season_data` derives them. -/
def scenarioSeason : SeasonData :=
  { season := 2022, teams := [teamA, teamB, teamC, teamD], matchups := [],
    champion := some teamA, runner_up := some teamB, error := none }

/-- A team whose final rank is unknown (stored 0) but whose playoff seed
is 5. -/
def teamE0 : Team :=
  { id := 5, name := "E Team", owner := "Erin", record := emptyTeamRecord,
    playoff_seed := 5, final_rank := 0 }

/-- A season containing a rank-0 team next to teams ranked 1-4; champion and
runner-up as `get_season_data` derives them (rank 0 maps to sort key 999
there). -/
def cexRankZeroSeason : SeasonData :=
  { season := 2021, teams := [teamE0, teamA, teamB, teamC, teamD],
    matchups := [], champion := some teamA, runner_up := some teamB,
    error := none }

/-- A season that has teams but an empty matchup list. -/
def emptyMatchupSeason : SeasonData :=
  { season := 2022, teams := [teamA], matchups := [], champion := none,
    runner_up := none, error := none }

/-! ## Supporting lemmas -/

theorem alGet_alSet_same [DecidableEq α] (m : List (α × β)) (a : α) (v : β) :
    alGet (alSet m a v) a = some v := by
  induction m with
  | nil => simp [alGet, alSet]
  | cons p rest ih =>
    by_cases h : p.1 = a
    · simp [alSet, alGet, h]
    · simp [alSet, alGet, h, ih]

theorem alGet_alSet_ne [DecidableEq α] (m : List (α × β)) (a b : α) (v : β)
    (h : a ≠ b) : alGet (alSet m a v) b = alGet m b := by
  induction m with
  | nil => simp [alGet, alSet, h]
  | cons p rest ih =>
    by_cases hp : p.1 = a
    · simp [alSet, alGet, hp, h, Ne.symm h, ih]
    · by_cases hb : p.1 = b
      · simp [alSet, alGet, hp, hb, Ne.symm h]
      · simp [alSet, alGet, hp, hb, ih]

theorem alGetD_alSet_same [DecidableEq α] (m : List (α × β)) (a : α)
    (v dflt : β) : alGetD (alSet m a v) a dflt = v := by
  simp [alGetD, alGet_alSet_same]

theorem alGetD_alSet_ne [DecidableEq α] (m : List (α × β)) (a b : α)
    (v : β) (dflt : β) (h : a ≠ b) :
    alGetD (alSet m a v) b dflt = alGetD m b dflt := by
  simp [alGetD, alGet_alSet_ne _ _ _ _ h]

theorem alGet_mem [DecidableEq α] (m : List (α × β)) (a : α) (v : β)
    (h : alGet m a = some v) : (a, v) ∈ m := by
  induction m with
  | nil => simp [alGet] at h
  | cons p rest ih =>
    obtain ⟨k, w⟩ := p
    by_cases hp : k = a
    · subst hp
      simp only [alGet, if_pos] at h
      injection h with h
      subst h
      exact List.mem_cons_self _ _
    · simp only [alGet, hp, if_false] at h
      exact List.mem_cons_of_mem _ (ih h)

theorem insertBy_perm (le : α → α → Bool) (x : α) (l : List α) :
    (insertBy le x l).Perm (x :: l) := by
  induction l with
  | nil => simp [insertBy]
  | cons y ys ih =>
    by_cases h : le x y
    · simp [insertBy, h]
    · simp only [insertBy, h, Bool.false_eq_true, if_false]
      exact (ih.cons y).trans (List.Perm.swap x y ys)

theorem sortBy_perm (le : α → α → Bool) (l : List α) :
    (sortBy le l).Perm l := by
  induction l with
  | nil => simp [sortBy]
  | cons x xs ih => exact (insertBy_perm le x (sortBy le xs)).trans (ih.cons x)

theorem insertBy_pairwise (le : α → α → Bool)
    (htot : ∀ a b, le a b = false → le b a = true)
    (htrans : ∀ a b c, le a b = true → le b c = true → le a c = true)
    (x : α) (l : List α) (h : l.Pairwise (fun a b => le a b = true)) :
    (insertBy le x l).Pairwise (fun a b => le a b = true) := by
  induction l with
  | nil => simp [insertBy]
  | cons y ys ih =>
    rcases h with _ | ⟨hy, hys⟩
    by_cases hxy : le x y
    · simp only [insertBy, hxy, if_true]
      refine List.Pairwise.cons ?_ (List.Pairwise.cons hy hys)
      intro z hz
      rcases List.mem_cons.mp hz with rfl | hz
      · exact hxy
      · exact htrans x y z hxy (hy z hz)
    · simp only [insertBy, hxy, Bool.false_eq_true, if_false]
      refine List.Pairwise.cons ?_ (ih hys)
      intro z hz
      rcases List.mem_cons.mp ((insertBy_perm le x ys).mem_iff.mp hz) with hzx | hz'
      · rw [hzx]
        exact htot x y (by simpa using hxy)
      · exact hy z hz'

theorem sortBy_pairwise (le : α → α → Bool)
    (htot : ∀ a b, le a b = false → le b a = true)
    (htrans : ∀ a b c, le a b = true → le b c = true → le a c = true)
    (l : List α) :
    (sortBy le l).Pairwise (fun a b => le a b = true) := by
  induction l with
  | nil => simp [sortBy]
  | cons x xs ih => exact insertBy_pairwise le htot htrans x _ ih

theorem round2_intCast (n : ℤ) : round2 ((n : ℚ)) = n := by
  simp only [round2, Rat.num_intCast, Rat.den_intCast]
  push_cast
  have h : (200 * n + 1) / 2 = 100 * n := by omega
  rw [h]
  push_cast
  ring

theorem IsIntQ.round2_eq {x : ℚ} (h : IsIntQ x) : round2 x = x := by
  rcases h with ⟨n, rfl⟩
  exact round2_intCast n

theorem IsIntQ.zero : IsIntQ 0 := ⟨0, by norm_num⟩

theorem IsIntQ.add {x y : ℚ} (hx : IsIntQ x) (hy : IsIntQ y) : IsIntQ (x + y) := by
  rcases hx with ⟨n, rfl⟩
  rcases hy with ⟨m, rfl⟩
  exact ⟨n + m, by push_cast; ring⟩

theorem IsIntQ.natCast (n : ℕ) : IsIntQ ((n : ℚ)) := ⟨n, by push_cast; ring⟩

theorem IsIntQ.sum {l : List ℚ} (h : ∀ x ∈ l, IsIntQ x) : IsIntQ l.sum := by
  induction l with
  | nil => simpa using IsIntQ.zero
  | cons x xs ih =>
    simp only [List.sum_cons]
    exact (h x (List.mem_cons_self x xs)).add
      (ih fun y hy => h y (List.mem_cons_of_mem x hy))

theorem eq_of_countP_le_one {l : List α} {p : α → Bool} {x y : α}
    (hx : x ∈ l) (hy : y ∈ l) (hpx : p x = true) (hpy : p y = true)
    (hc : l.countP p ≤ 1) : x = y := by
  by_contra hne
  induction l with
  | nil => simp at hx
  | cons a rest ih =>
    rcases List.mem_cons.mp hx with rfl | hx'
    · rcases List.mem_cons.mp hy with rfl | hy'
      · exact hne rfl
      · have : 0 < rest.countP p := List.countP_pos_iff.mpr ⟨y, hy', hpy⟩
        rw [List.countP_cons, hpx, if_pos rfl] at hc
        omega
    · rcases List.mem_cons.mp hy with rfl | hy'
      · have : 0 < rest.countP p := List.countP_pos_iff.mpr ⟨x, hx', hpx⟩
        rw [List.countP_cons, hpy, if_pos rfl] at hc
        omega
      · refine ih hx' hy' ?_
        rw [List.countP_cons] at hc
        omega

theorem countP_ge_two {l : List α} {p : α → Bool} {x y : α}
    (hx : x ∈ l) (hy : y ∈ l) (hne : x ≠ y) (hpx : p x = true)
    (hpy : p y = true) : 2 ≤ l.countP p := by
  by_contra hlt
  exact hne (eq_of_countP_le_one hx hy hpx hpy (by omega))

/-! ## Season Fetcher lemmas -/

theorem makeRequestGo_all_fail (attempts : List (String × HostResponse))
    (le0 : Option String) (h : ∀ a ∈ attempts, hostSucceeds a = false) :
    makeRequestGo attempts le0 =
      .error ("All API hosts failed. Last error: " ++ lastFailureMsg attempts le0) := by
  induction attempts generalizing le0 with
  | nil => simp [makeRequestGo, lastFailureMsg]
  | cons a rest ih =>
    have ha : hostSucceeds a = false := h a (List.mem_cons_self a rest)
    simp only [makeRequestGo, ha, Bool.false_eq_true, if_false, lastFailureMsg]
    exact ih _ fun x hx => h x (List.mem_cons_of_mem a hx)

theorem makeRequestGo_first_success (pre post : List (String × HostResponse))
    (a : String × HostResponse) (le0 : Option String)
    (hpre : ∀ x ∈ pre, hostSucceeds x = false) (ha : hostSucceeds a = true) :
    ∃ le1, makeRequestGo (pre ++ a :: post) le0 = .ok (hostBody a) ∧
      makeRequestGo (a :: post) le1 = .ok (hostBody a) := by
  induction pre generalizing le0 with
  | nil =>
    refine ⟨le0, ?_, ?_⟩ <;>
    · obtain ⟨url, resp⟩ := a
      cases resp with
      | response status ct body => simp [makeRequestGo, ha, hostBody]
      | transportError msg => simp [hostSucceeds] at ha
  | cons x rest ih =>
    have hx : hostSucceeds x = false := hpre x (List.mem_cons_self x rest)
    obtain ⟨le1, h1, h2⟩ :=
      ih (some (hostFailureMsg x)) fun y hy => hpre y (List.mem_cons_of_mem x hy)
    exact ⟨le1, by simpa [makeRequestGo, hx] using h1, h2⟩

theorem makeRequestGo_error_then_all_fail
    (attempts : List (String × HostResponse)) :
    ∀ (le0 : Option String) (msg : String),
      makeRequestGo attempts le0 = .error msg →
      ∀ a ∈ attempts, hostSucceeds a = false := by
  induction attempts with
  | nil => intro le0 msg _ a ha; simp at ha
  | cons x rest ih =>
    intro le0 msg h a ha
    by_cases hx : hostSucceeds x
    · exfalso
      obtain ⟨url, resp⟩ := x
      cases resp with
      | response status ct body => simp [makeRequestGo, hx] at h
      | transportError m => simp [hostSucceeds] at hx
    · rcases List.mem_cons.mp ha with rfl | ha'
      · simpa using hx
      · simp only [makeRequestGo, hx, Bool.false_eq_true, if_false] at h
        exact ih _ _ h a ha'

/-! ## Claim C3 — exception absorption in get_season_data -/

/-- C3: for every season year, if fetching or normalizing fails (including
every API host failing for the team view), `get_season_data` still returns a
season record for that year with empty teams and matchups, absent champion
and runner-up, and a populated error string; the exception is never
propagated (the function is total and returns a record in every case). -/
theorem C3_exception_absorption :
    (∀ (season : Int) (e : String),
      get_season_data season (.error e) =
        { season := season, teams := [], matchups := [], champion := none,
          runner_up := none, error := some e }) ∧
    (∀ (season : Int) (teamAttempts schedAttempts : List (String × HostResponse))
        (pt : String → List RawTeam) (ps : String → List RawScheduleEntry),
      (∀ a ∈ teamAttempts, hostSucceeds a = false) →
      get_season_data season (fetch_raw_season teamAttempts schedAttempts pt ps) =
        { season := season, teams := [], matchups := [], champion := none,
          runner_up := none,
          error := some ("All API hosts failed. Last error: " ++
            lastFailureMsg teamAttempts none) }) := by
  constructor
  · intro season e
    rfl
  · intro season teamAttempts schedAttempts pt ps hfail
    have h : make_request teamAttempts =
        .error ("All API hosts failed. Last error: " ++
          lastFailureMsg teamAttempts none) :=
      makeRequestGo_all_fail teamAttempts none hfail
    simp [fetch_raw_season, h, get_season_data, Bind.bind, Except.bind]

/-- Witness for C3: one transport-failing host yields the empty-with-error
record for season 2023. -/
theorem C3_witness :
    get_season_data 2023
        (fetch_raw_season [("https://hostA/api", .transportError "timeout")] []
          (fun _ => []) (fun _ => [])) =
      { season := 2023, teams := [], matchups := [], champion := none,
        runner_up := none,
        error := some
          "All API hosts failed. Last error: Request failed for https://hostA/api: timeout" } := by
  have h := C3_exception_absorption.2 2023
    [("https://hostA/api", .transportError "timeout")] []
    (fun _ => []) (fun _ => []) (by decide)
  exact h

/-! ## Claim C4 — owner resolution is total, with its actual fallbacks -/

/-- C4 counterexample: on an object-shaped (dict) input with no embedded
display name, `_get_owner_name` returns the literal `"Unknown"`, not the
`"Unknown Owner"` sentinel the claim names. -/
theorem C4_counterexample :
    get_owner_name (.obj []) = "Unknown" ∧
    get_owner_name (.obj []) ≠ "Unknown Owner" := by
  constructor
  · rfl
  · decide

/-- C4 (amended): owner resolution is total — both resolvers return a value
on every input shape.  Non-string, non-dict input (integers, `None`) and
unmapped team ids degrade to `"Unknown Owner"`; dict input uses the embedded
`displayName`, then `firstName`, then the literal `"Unknown"` (not the
`"Unknown Owner"` sentinel); unmapped plain strings are returned unchanged
and brace-wrapped unmapped strings become the partial-UUID label
`"Owner " ++ first 8 characters ++ "..."`. -/
theorem C4_total_resolution :
    (∀ n : Int, get_owner_name (.intVal n) = "Unknown Owner") ∧
    (get_owner_name .noneVal = "Unknown Owner") ∧
    (∀ (fields : List (String × String)) (dn : String),
      alGet fields "displayName" = some dn →
      get_owner_name (.obj fields) = dn) ∧
    (∀ (fields : List (String × String)) (fn : String),
      alGet fields "displayName" = none →
      alGet fields "firstName" = some fn →
      get_owner_name (.obj fields) = fn) ∧
    (∀ fields : List (String × String),
      alGet fields "displayName" = none →
      alGet fields "firstName" = none →
      get_owner_name (.obj fields) = "Unknown") ∧
    (∀ s : String, alGet OWNER_UUID_MAP s = none →
      (strStartsWith s "\x7b" && strEndsWith s "\x7d") = false →
      get_owner_name (.str s) = s) ∧
    (∀ s : String, alGet OWNER_UUID_MAP s = none →
      (strStartsWith s "\x7b" && strEndsWith s "\x7d") = true →
      get_owner_name (.str s) = "Owner " ++ s.take 8 ++ "...") ∧
    (∀ id : Nat, alGet TEAM_ID_MAP id = none →
      map_team_to_owner id = "Unknown Owner") := by
  refine ⟨fun n => rfl, rfl, ?_, ?_, ?_, ?_, ?_, ?_⟩
  · intro fields dn h
    simp [get_owner_name, alGetD, h]
  · intro fields fn h1 h2
    simp [get_owner_name, alGetD, h1, h2]
  · intro fields h1 h2
    simp [get_owner_name, alGetD, h1, h2]
  · intro s h1 h2
    simp [get_owner_name, h1, h2]
  · intro s h1 h2
    simp [get_owner_name, h1, h2]
  · intro id h
    simp [map_team_to_owner, h]

/-- Witness for C4: concrete instances of every resolution branch,
including an unmapped brace-wrapped UUID string becoming the partial-UUID
label. -/
theorem C4_total_resolution_witness :
    get_owner_name (.intVal 7) = "Unknown Owner" ∧
    get_owner_name (.obj [("firstName", "Dan"), ("displayName", "Dan C")]) = "Dan C" ∧
    get_owner_name (.obj [("firstName", "Dan")]) = "Dan" ∧
    get_owner_name (.str "not a uuid") = "not a uuid" ∧
    get_owner_name (.str "\x7bDEADBEEF-0000-4000-8000-000000000000\x7d") =
      "Owner \x7bDEADBEE..." ∧
    map_team_to_owner 42 = "Unknown Owner" :=
  ⟨C4_total_resolution.1 7,
   C4_total_resolution.2.2.1 _ "Dan C" (by decide),
   C4_total_resolution.2.2.2.1 _ "Dan" (by decide) (by decide),
   C4_total_resolution.2.2.2.2.2.1 "not a uuid" (by decide) (by decide),
   by
     have h := C4_total_resolution.2.2.2.2.2.2.1
       "\x7bDEADBEEF-0000-4000-8000-000000000000\x7d" (by decide) (by decide)
     rw [h]
     rfl,
   C4_total_resolution.2.2.2.2.2.2.2 42 (by decide)⟩

/-! ## Claim C5 — host-list walk of _make_request -/

/-- C5 counterexample: with two failing hosts the raised message holds only
the most recent failure — host A's failure message does not occur in it, so
the message does not aggregate the last failure of each host. -/
theorem C5_counterexample :
    make_request
        [("https://hostA/api", .transportError "connA"),
         ("https://hostB/api", .transportError "connB")] =
      .error
        "All API hosts failed. Last error: Request failed for https://hostB/api: connB" ∧
    strContains
        "All API hosts failed. Last error: Request failed for https://hostB/api: connB"
        (hostFailureMsg ("https://hostA/api", .transportError "connA")) = false := by
  constructor
  · rfl
  · decide

/-- C5 (amended): `_make_request` walks the prioritized host list in order
and the first host answering HTTP 200 with a JSON content type wins; it
raises only after every host has failed (non-200, non-JSON 200, or transport
error), and conversely a raised error implies every host failed; the raised
message carries exactly the most recent failure, not one entry per host. -/
theorem C5_host_walk :
    (∀ (pre post : List (String × HostResponse)) (a : String × HostResponse),
      (∀ x ∈ pre, hostSucceeds x = false) → hostSucceeds a = true →
      make_request (pre ++ a :: post) = .ok (hostBody a)) ∧
    (∀ attempts : List (String × HostResponse),
      (∀ a ∈ attempts, hostSucceeds a = false) →
      make_request attempts =
        .error ("All API hosts failed. Last error: " ++
          lastFailureMsg attempts none)) ∧
    (∀ (attempts : List (String × HostResponse)) (msg : String),
      make_request attempts = .error msg →
      ∀ a ∈ attempts, hostSucceeds a = false) := by
  refine ⟨?_, ?_, ?_⟩
  · intro pre post a hpre ha
    obtain ⟨le1, h1, _⟩ := makeRequestGo_first_success pre post a none hpre ha
    exact h1
  · intro attempts h
    exact makeRequestGo_all_fail attempts none h
  · intro attempts msg h
    exact makeRequestGo_error_then_all_fail attempts none msg h

/-- Witness for C5: a failing first host followed by a JSON 200 host — the
second host's body is returned; and a two-failure list raises. -/
theorem C5_host_walk_witness :
    make_request
        [("https://hostA/api", .response 500 "text/html" "oops"),
         ("https://hostB/api", .response 200 "application/json" "the body")] =
      .ok "the body" ∧
    make_request [("https://hostA/api", .transportError "down")] =
      .error "All API hosts failed. Last error: Request failed for https://hostA/api: down" :=
  ⟨C5_host_walk.1 [("https://hostA/api", .response 500 "text/html" "oops")] []
      ("https://hostB/api", .response 200 "application/json" "the body")
      (by decide) (by decide),
   C5_host_walk.2.1 [("https://hostA/api", .transportError "down")] (by decide)⟩

/-! ## Claim C10 — absent final rank counts as a playoff appearance -/

/-- C10: a raw team whose `rankCalculatedFinal` is absent is normalized with
`final_rank = 0`; since `0 ≤ 6` the playoff-cutoff test of
`get_all_time_stats` then holds whatever the playoff seed, so adding such a
team to a season increments its owner's playoff-appearance count by one. -/
theorem C10_absent_rank_playoff (raw : RawTeam)
    (h : raw.rankCalculatedFinal = none) :
    (normalizeTeam raw).final_rank = 0 ∧
    isPlayoffAppearance (normalizeTeam raw) = true ∧
    (∀ (y : Int) (ms : List Matchup) (c r : Option Team) (err : Option String)
        (pre post : List Team),
      playoffAppearances
          [{ season := y, teams := pre ++ normalizeTeam raw :: post,
             matchups := ms, champion := c, runner_up := r, error := err }]
          ((normalizeTeam raw).owner) =
        playoffAppearances
            [{ season := y, teams := pre ++ post, matchups := ms,
               champion := c, runner_up := r, error := err }]
            ((normalizeTeam raw).owner) + 1) := by
  have hrank : (normalizeTeam raw).final_rank = 0 := by
    simp [normalizeTeam, h]
  have hplay : isPlayoffAppearance (normalizeTeam raw) = true := by
    simp [isPlayoffAppearance, hrank]
  refine ⟨hrank, hplay, ?_⟩
  intro y ms c r err pre post
  simp [playoffAppearances, List.countP_append, List.countP_cons, hplay]
  omega

/-- Witness for C10: a raw team with id 5, playoff seed 3 and no final rank
is counted as one playoff appearance for its owner. -/
theorem C10_absent_rank_playoff_witness :
    (normalizeTeam ⟨5, none, none, none, none, some 3, none⟩).final_rank = 0 ∧
    isPlayoffAppearance (normalizeTeam ⟨5, none, none, none, none, some 3, none⟩) = true ∧
    playoffAppearances
        [{ season := 2022,
           teams := [normalizeTeam ⟨5, none, none, none, none, some 3, none⟩],
           matchups := [], champion := none, runner_up := none, error := none }]
        ((normalizeTeam ⟨5, none, none, none, none, some 3, none⟩).owner) =
      playoffAppearances
          [{ season := 2022, teams := [], matchups := [], champion := none,
             runner_up := none, error := none }]
          ((normalizeTeam ⟨5, none, none, none, none, some 3, none⟩).owner) + 1 :=
  ⟨(C10_absent_rank_playoff _ rfl).1, (C10_absent_rank_playoff _ rfl).2.1,
   (C10_absent_rank_playoff ⟨5, none, none, none, none, some 3, none⟩ rfl).2.2
     2022 [] none none none [] []⟩

/-! ## Claim C2 — champion and runner-up derivation -/

theorem rankKey_pos (t : Team) : 1 ≤ rankKey t := by
  unfold rankKey
  split <;> omega

theorem rankKey_eq_one (t : Team) : rankKey t = 1 ↔ t.final_rank = 1 := by
  unfold rankKey
  split <;> omega

theorem rankKey_eq_two (t : Team) : rankKey t = 2 ↔ t.final_rank = 2 := by
  unfold rankKey
  split <;> omega

/-- C2: in the canonical record, when final ranks 1 and 2 are each held by at
most one team, the champion is exactly the team with final rank 1 and the
runner-up exactly the team with final rank 2; when no team holds rank 1 both
are absent, and when no team holds rank 2 the runner-up is absent — neither
is ever inferred from another rank. -/
theorem C2_champion_runner_up (teams : List Team)
    (h1 : teams.countP (fun t => decide (t.final_rank = 1)) ≤ 1)
    (h2 : teams.countP (fun t => decide (t.final_rank = 2)) ≤ 1) :
    (∀ t, (computeChampionRunnerUp teams).1 = some t →
      t ∈ teams ∧ t.final_rank = 1) ∧
    (∀ t ∈ teams, t.final_rank = 1 →
      (computeChampionRunnerUp teams).1 = some t) ∧
    (∀ u, (computeChampionRunnerUp teams).2 = some u →
      u ∈ teams ∧ u.final_rank = 2) ∧
    (∀ t ∈ teams, t.final_rank = 1 → ∀ u ∈ teams, u.final_rank = 2 →
      (computeChampionRunnerUp teams).2 = some u) ∧
    ((∀ t ∈ teams, t.final_rank ≠ 1) →
      (computeChampionRunnerUp teams).1 = none ∧
      (computeChampionRunnerUp teams).2 = none) ∧
    ((∀ u ∈ teams, u.final_rank ≠ 2) →
      (computeChampionRunnerUp teams).2 = none) := by
  have hperm := sortBy_perm (fun a b : Team => decide (rankKey a ≤ rankKey b)) teams
  have hpair := sortBy_pairwise (fun a b : Team => decide (rankKey a ≤ rankKey b))
    (by intro a b hab; simp at hab ⊢; omega)
    (by intro a b c hab hbc; simp at hab hbc ⊢; omega) teams
  cases hl : sortBy (fun a b : Team => decide (rankKey a ≤ rankKey b)) teams with
  | nil =>
    rw [hl] at hperm
    have hte : teams = [] := hperm.symm.eq_nil
    subst hte
    simp [computeChampionRunnerUp, hl]
  | cons x tail =>
    rw [hl] at hperm hpair
    cases tail with
    | nil =>
      -- singleton: teams is a permutation of [x]
      have hmem : ∀ t ∈ teams, t = x := by
        intro t ht
        have := hperm.symm.mem_iff.mp ht
        simpa using this
      have hxmem : x ∈ teams := hperm.mem_iff.mp (by simp)
      refine ⟨?_, ?_, ?_, ?_, ?_, ?_⟩
      · intro t hsome
        simp only [computeChampionRunnerUp, hl] at hsome
        by_cases hx1 : x.final_rank = 1
        · simp [hx1] at hsome
          exact ⟨hsome ▸ hxmem, hsome ▸ hx1⟩
        · simp [hx1] at hsome
      · intro t ht hrank
        have := hmem t ht
        subst this
        simp [computeChampionRunnerUp, hl, hrank]
      · intro u hsome
        simp [computeChampionRunnerUp, hl] at hsome
      · intro t ht hrank1 u hu hrank2
        have h1' := hmem t ht
        have h2' := hmem u hu
        rw [h1'] at hrank1
        rw [h2'] at hrank2
        omega
      · intro hno
        have : x.final_rank ≠ 1 := hno x hxmem
        simp [computeChampionRunnerUp, hl, this]
      · intro _
        simp [computeChampionRunnerUp, hl]
    | cons v rest =>
      -- at least two elements
      have hxmem : x ∈ teams := hperm.mem_iff.mp (by simp)
      have hvmem : v ∈ teams := hperm.mem_iff.mp (by simp)
      have hcount1 : (x :: v :: rest).countP (fun t => decide (t.final_rank = 1)) =
          teams.countP (fun t => decide (t.final_rank = 1)) := hperm.countP_eq _
      have hcount2 : (x :: v :: rest).countP (fun t => decide (t.final_rank = 2)) =
          teams.countP (fun t => decide (t.final_rank = 2)) := hperm.countP_eq _
      have hxle : ∀ z ∈ v :: rest, rankKey x ≤ rankKey z := by
        intro z hz
        have := (List.pairwise_cons.mp hpair).1 z hz
        simpa using this
      have hvle : ∀ z ∈ rest, rankKey v ≤ rankKey z := by
        intro z hz
        have := (List.pairwise_cons.mp (List.pairwise_cons.mp hpair).2).1 z hz
        simpa using this
      -- the head is the unique rank-1 team when one exists
      have hhead : ∀ t ∈ teams, t.final_rank = 1 → x = t := by
        intro t ht hrank
        have htl : t ∈ x :: v :: rest := hperm.symm.mem_iff.mp ht
        rcases List.mem_cons.mp htl with rfl | htail
        · rfl
        · have hle := hxle t htail
          have : rankKey t = 1 := (rankKey_eq_one t).mpr hrank
          have hx1 : rankKey x = 1 := by
            have := rankKey_pos x
            omega
          have hxr : x.final_rank = 1 := (rankKey_eq_one x).mp hx1
          exact eq_of_countP_le_one hxmem ht (by simpa using hxr)
            (by simpa using hrank) h1
      refine ⟨?_, ?_, ?_, ?_, ?_, ?_⟩
      · intro t hsome
        simp only [computeChampionRunnerUp, hl] at hsome
        by_cases hx1 : x.final_rank = 1
        · simp [hx1] at hsome
          exact ⟨hsome ▸ hxmem, hsome ▸ hx1⟩
        · simp [hx1] at hsome
      · intro t ht hrank
        have := hhead t ht hrank
        subst this
        simp [computeChampionRunnerUp, hl, hrank]
      · intro u hsome
        simp only [computeChampionRunnerUp, hl] at hsome
        by_cases hv2 : v.final_rank = 2
        · simp [hv2] at hsome
          exact ⟨hsome ▸ hvmem, hsome ▸ hv2⟩
        · simp [hv2] at hsome
      · intro t ht hrank1 u hu hrank2
        have hxt : x = t := hhead t ht hrank1
        have hutail : u ∈ v :: rest := by
          have hul : u ∈ x :: v :: rest := hperm.symm.mem_iff.mp hu
          rcases List.mem_cons.mp hul with rfl | htail
          · exfalso
            rw [← hxt] at hrank1
            omega
          · exact htail
        have hv2 : v.final_rank = 2 := by
          rcases List.mem_cons.mp hutail with rfl | hurest
          · exact hrank2
          · have hle := hvle u hurest
            have hu2 : rankKey u = 2 := (rankKey_eq_two u).mpr hrank2
            have hvk : rankKey v = 1 ∨ rankKey v = 2 := by
              have := rankKey_pos v
              omega
            rcases hvk with hvk1 | hvk2
            · exfalso
              have hvr : v.final_rank = 1 := (rankKey_eq_one v).mp hvk1
              have hxr : x.final_rank = 1 := by rw [hxt]; exact hrank1
              have : 2 ≤ (x :: v :: rest).countP
                  (fun t => decide (t.final_rank = 1)) := by
                simp [List.countP_cons, hxr, hvr]
              omega
            · exact (rankKey_eq_two v).mp hvk2
        have hvu : v = u :=
          eq_of_countP_le_one hvmem hu (by simpa using hv2)
            (by simpa using hrank2) h2
        subst hvu
        simp [computeChampionRunnerUp, hl, hv2]
      · intro hno
        have hx1 : x.final_rank ≠ 1 := hno x hxmem
        constructor
        · simp [computeChampionRunnerUp, hl, hx1]
        · -- if the second element had rank 2, the head would have rank ≤ 2,
          -- hence rank 2 as well, contradicting uniqueness of rank 2
          by_cases hv2 : v.final_rank = 2
          · exfalso
            have hle := hxle v (by simp)
            have hv2k : rankKey v = 2 := (rankKey_eq_two v).mpr hv2
            have hxk : rankKey x = 1 ∨ rankKey x = 2 := by
              have := rankKey_pos x
              omega
            rcases hxk with hxk1 | hxk2
            · exact hx1 ((rankKey_eq_one x).mp hxk1)
            · have hx2 : x.final_rank = 2 := (rankKey_eq_two x).mp hxk2
              have : 2 ≤ (x :: v :: rest).countP
                  (fun t => decide (t.final_rank = 2)) := by
                simp [List.countP_cons, hx2, hv2]
              omega
          · simp [computeChampionRunnerUp, hl, hv2]
      · intro hno
        have hv2 : v.final_rank ≠ 2 := hno v hvmem
        simp [computeChampionRunnerUp, hl, hv2]

/-- Witness for C2: with final ranks 1 and 2 on two teams, the champion and
runner-up are exactly those teams. -/
theorem C2_champion_runner_up_witness :
    (computeChampionRunnerUp
        [{ id := 1, name := "Alpha", owner := "Dan Costa",
           record := emptyTeamRecord, playoff_seed := 1, final_rank := 1 },
         { id := 2, name := "Beta", owner := "Greg Costa",
           record := emptyTeamRecord, playoff_seed := 2, final_rank := 2 }]).1 =
      some { id := 1, name := "Alpha", owner := "Dan Costa",
             record := emptyTeamRecord, playoff_seed := 1, final_rank := 1 } ∧
    (computeChampionRunnerUp
        [{ id := 1, name := "Alpha", owner := "Dan Costa",
           record := emptyTeamRecord, playoff_seed := 1, final_rank := 1 },
         { id := 2, name := "Beta", owner := "Greg Costa",
           record := emptyTeamRecord, playoff_seed := 2, final_rank := 2 }]).2 =
      some { id := 2, name := "Beta", owner := "Greg Costa",
             record := emptyTeamRecord, playoff_seed := 2, final_rank := 2 } := by
  have h := C2_champion_runner_up
    [{ id := 1, name := "Alpha", owner := "Dan Costa",
       record := emptyTeamRecord, playoff_seed := 1, final_rank := 1 },
     { id := 2, name := "Beta", owner := "Greg Costa",
       record := emptyTeamRecord, playoff_seed := 2, final_rank := 2 }]
    (by decide) (by decide)
  exact ⟨h.2.1
      { id := 1, name := "Alpha", owner := "Dan Costa",
        record := emptyTeamRecord, playoff_seed := 1, final_rank := 1 }
      (by simp) rfl,
    h.2.2.2.1
      { id := 1, name := "Alpha", owner := "Dan Costa",
        record := emptyTeamRecord, playoff_seed := 1, final_rank := 1 }
      (by simp) rfl
      { id := 2, name := "Beta", owner := "Greg Costa",
        record := emptyTeamRecord, playoff_seed := 2, final_rank := 2 }
      (by simp) rfl⟩

/-! ## Head-to-head lemmas -/

theorem pairKey_cases (x y : String) :
    pairKey x y = (x, y) ∨ pairKey x y = (y, x) := by
  unfold pairKey
  split <;> simp

theorem pairKey_unordered {t1 t2 a b : String}
    (h : pairKey t1 t2 = pairKey a b) :
    (t1 = a ∧ t2 = b) ∨ (t1 = b ∧ t2 = a) := by
  rcases pairKey_cases t1 t2 with h1 | h1 <;>
    rcases pairKey_cases a b with h2 | h2 <;>
      rw [h1, h2] at h <;> cases h <;> simp_all

theorem charListLe_total (l1 l2 : List Char) :
    charListLe l1 l2 = true ∨ charListLe l2 l1 = true := by
  induction l1 generalizing l2 with
  | nil => left; rfl
  | cons c cs ih =>
    cases l2 with
    | nil => right; rfl
    | cons d ds =>
      by_cases h1 : c.toNat < d.toNat
      · left; simp [charListLe, h1]
      · by_cases h2 : d.toNat < c.toNat
        · right; simp [charListLe, h2]
        · rcases ih ds with h | h
          · left; simp [charListLe, h1, h2, h]
          · right
            have h1' : ¬d.toNat < c.toNat := h2
            have h2' : ¬c.toNat < d.toNat := h1
            simp [charListLe, h1', h2', h]

theorem charListLe_antisymm (l1 l2 : List Char)
    (h12 : charListLe l1 l2 = true) (h21 : charListLe l2 l1 = true) :
    l1 = l2 := by
  induction l1 generalizing l2 with
  | nil =>
    cases l2 with
    | nil => rfl
    | cons d ds => simp [charListLe] at h21
  | cons c cs ih =>
    cases l2 with
    | nil => simp [charListLe] at h12
    | cons d ds =>
      by_cases h1 : c.toNat < d.toNat
      · simp [charListLe, h1, Nat.lt_asymm h1] at h21
      · by_cases h2 : d.toNat < c.toNat
        · simp [charListLe, h1, h2] at h12
        · have hnat : c.toNat = d.toNat := by omega
          have hcd : c = d :=
            Char.eq_of_val_eq (UInt32.eq_of_val_eq (Fin.eq_of_val_eq hnat))
          subst hcd
          simp [charListLe, h1, h2] at h12 h21
          rw [ih ds h12 h21]

theorem strLe_total (a b : String) : strLe a b = true ∨ strLe b a = true :=
  charListLe_total a.toList b.toList

theorem strLe_antisymm (a b : String) (h1 : strLe a b = true)
    (h2 : strLe b a = true) : a = b := by
  have h := charListLe_antisymm a.toList b.toList h1 h2
  cases a
  cases b
  simp only [String.toList] at h
  rw [h]

theorem pairKey_comm (a b : String) : pairKey a b = pairKey b a := by
  by_cases h1 : strLe a b = true
  · by_cases h2 : strLe b a = true
    · have : a = b := strLe_antisymm a b h1 h2
      subst this
      rfl
    · simp [pairKey, h1, h2]
  · have h2 : strLe b a = true := (strLe_total a b).resolve_left h1
    simp [pairKey, h1, h2]

theorem meets_comm (a b : String) (mu : Matchup) :
    meets a b mu = meets b a mu := by
  unfold meets
  rcases mu.teams with _ | ⟨t1, _ | ⟨t2, _ | ⟨t3, rest⟩⟩⟩ <;> try rfl
  by_cases h1 : t1.name = a <;> by_cases h2 : t2.name = b <;>
    by_cases h3 : t1.name = b <;> by_cases h4 : t2.name = a <;>
      simp [h1, h2, h3, h4]

theorem getRec_update_same (m : H2HMap) (a b : String)
    (f : H2HRecord → H2HRecord) :
    getRec (h2hUpdate m a b f) a b = f (getRec m a b) := by
  simp [h2hUpdate, getRec, alGetD_alSet_same]

theorem getRec_update_ne (m : H2HMap) (a b c d : String)
    (f : H2HRecord → H2HRecord) (h : ¬(a = c ∧ b = d)) :
    getRec (h2hUpdate m a b f) c d = getRec m c d := by
  by_cases hac : a = c
  · subst hac
    have hbd : b ≠ d := fun hbd => h ⟨rfl, hbd⟩
    have h1 : ∀ v, alGetD (alSet (alGetD m a []) b v) d emptyH2H =
        alGetD (alGetD m a []) d emptyH2H :=
      fun v => alGetD_alSet_ne _ _ _ _ _ hbd
    simp [h2hUpdate, getRec, alGetD_alSet_same, h1]
  · have h1 : ∀ v, alGetD (alSet m a v) c ([] : List (String × H2HRecord)) =
        alGetD m c [] :=
      fun v => alGetD_alSet_ne _ _ _ _ _ hac
    simp [h2hUpdate, getRec, h1]

theorem hasPair_update (m : H2HMap) (a b c d : String)
    (f : H2HRecord → H2HRecord) :
    hasPair (h2hUpdate m a b f) c d =
      (hasPair m c d || (decide (a = c) && decide (b = d))) := by
  by_cases hac : a = c
  · subst hac
    by_cases hbd : b = d
    · subst hbd
      simp [h2hUpdate, hasPair, alGet_alSet_same]
    · have h1 : alGet (alSet (alGetD m a []) b
          (f (alGetD (alGetD m a []) b emptyH2H))) d =
          alGet (alGetD m a []) d :=
        alGet_alSet_ne _ _ _ _ hbd
      simp only [h2hUpdate, hasPair, alGet_alSet_same, h1, hbd]
      cases halg : alGet m a with
      | none => simp [alGetD, halg, alGet]
      | some i => simp [alGetD, halg]
  · have h1 : ∀ v, alGet (alSet m a v) c = alGet m c :=
      fun v => alGet_alSet_ne _ _ _ _ hac
    simp [h2hUpdate, hasPair, h1, hac]

theorem h2hAddValid_left (m : H2HMap) (a b : String) (s1 s2 : ℚ)
    (hab : a ≠ b) :
    getRec (h2hAddValid m a b s1 s2) a b =
      { wins := (getRec m a b).wins + (if s2 < s1 then 1 else 0),
        losses := (getRec m a b).losses + (if s2 < s1 then 0 else 1),
        points_for := (getRec m a b).points_for + round2 s1,
        points_against := (getRec m a b).points_against + round2 s2,
        games := (getRec m a b).games + 1 } := by
  have hne1 : ¬(b = a ∧ a = b) := fun h => hab h.1.symm
  by_cases hs : s2 < s1
  · simp only [h2hAddValid, hs, if_true]
    rw [getRec_update_ne _ _ _ _ _ _ hne1, getRec_update_same,
      getRec_update_ne _ _ _ _ _ _ hne1, getRec_update_same,
      getRec_update_ne _ _ _ _ _ _ hne1, getRec_update_same]
    simp [hs]
  · simp only [h2hAddValid, hs, if_false]
    rw [getRec_update_same, getRec_update_ne _ _ _ _ _ _ hne1,
      getRec_update_ne _ _ _ _ _ _ hne1, getRec_update_same,
      getRec_update_ne _ _ _ _ _ _ hne1, getRec_update_same]
    simp [hs]

theorem h2hAddValid_right (m : H2HMap) (a b : String) (s1 s2 : ℚ)
    (hab : a ≠ b) :
    getRec (h2hAddValid m a b s1 s2) b a =
      { wins := (getRec m b a).wins + (if s2 < s1 then 0 else 1),
        losses := (getRec m b a).losses + (if s2 < s1 then 1 else 0),
        points_for := (getRec m b a).points_for + round2 s2,
        points_against := (getRec m b a).points_against + round2 s1,
        games := (getRec m b a).games + 1 } := by
  have hne2 : ¬(a = b ∧ b = a) := fun h => hab h.1
  by_cases hs : s2 < s1
  · simp only [h2hAddValid, hs, if_true]
    rw [getRec_update_same, getRec_update_ne _ _ _ _ _ _ hne2,
      getRec_update_same, getRec_update_ne _ _ _ _ _ _ hne2,
      getRec_update_same, getRec_update_ne _ _ _ _ _ _ hne2]
    simp [hs]
  · simp only [h2hAddValid, hs, if_false]
    rw [getRec_update_ne _ _ _ _ _ _ hne2, getRec_update_same,
      getRec_update_same, getRec_update_ne _ _ _ _ _ _ hne2,
      getRec_update_same, getRec_update_ne _ _ _ _ _ _ hne2]
    simp [hs]

theorem h2hAddValid_other (m : H2HMap) (a b c d : String) (s1 s2 : ℚ)
    (h1 : ¬(a = c ∧ b = d)) (h2 : ¬(b = c ∧ a = d)) :
    getRec (h2hAddValid m a b s1 s2) c d = getRec m c d := by
  by_cases hs : s2 < s1
  · simp only [h2hAddValid, hs, if_true]
    rw [getRec_update_ne _ _ _ _ _ _ h2, getRec_update_ne _ _ _ _ _ _ h1,
      getRec_update_ne _ _ _ _ _ _ h2, getRec_update_ne _ _ _ _ _ _ h1,
      getRec_update_ne _ _ _ _ _ _ h2, getRec_update_ne _ _ _ _ _ _ h1]
  · simp only [h2hAddValid, hs, if_false]
    rw [getRec_update_ne _ _ _ _ _ _ h1, getRec_update_ne _ _ _ _ _ _ h2,
      getRec_update_ne _ _ _ _ _ _ h2, getRec_update_ne _ _ _ _ _ _ h1,
      getRec_update_ne _ _ _ _ _ _ h2, getRec_update_ne _ _ _ _ _ _ h1]

theorem h2hAddValid_hasPair (m : H2HMap) (a b c d : String) (s1 s2 : ℚ) :
    hasPair (h2hAddValid m a b s1 s2) c d =
      (hasPair m c d ||
        ((decide (a = c) && decide (b = d)) ||
          (decide (b = c) && decide (a = d)))) := by
  by_cases hs : s2 < s1 <;>
    · simp only [h2hAddValid, hs, if_true, if_false, Bool.false_eq_true,
        hasPair_update]
      by_cases h1 : a = c <;> by_cases h2 : b = d <;>
        by_cases h3 : b = c <;> by_cases h4 : a = d <;>
          simp [h1, h2, h3, h4]

theorem h2hAddMatchup_step (m : H2HMap) (mu : Matchup) (a b : String)
    (hab : a ≠ b) :
    (getRec (h2hAddMatchup m mu) a b).games =
        (getRec m a b).games + (if meets a b mu then 1 else 0) ∧
    (getRec (h2hAddMatchup m mu) a b).wins +
        (getRec (h2hAddMatchup m mu) b a).wins =
      (getRec m a b).wins + (getRec m b a).wins +
        (if meets a b mu then 1 else 0) ∧
    hasPair (h2hAddMatchup m mu) a b = (hasPair m a b || meets a b mu) := by
  rcases hmu : mu.teams with _ | ⟨t1, _ | ⟨t2, _ | ⟨t3, rest⟩⟩⟩
  · have hid : h2hAddMatchup m mu = m := by simp [h2hAddMatchup, hmu]
    have hm : meets a b mu = false := by simp [meets, hmu]
    simp [hid, hm]
  · have hid : h2hAddMatchup m mu = m := by simp [h2hAddMatchup, hmu]
    have hm : meets a b mu = false := by simp [meets, hmu]
    simp [hid, hm]
  · by_cases hval : 0 < t1.score ∧ 0 < t2.score
    · have hid : h2hAddMatchup m mu =
          h2hAddValid m t1.name t2.name t1.score t2.score := by
        simp [h2hAddMatchup, hmu, hval]
      by_cases hc1 : t1.name = a ∧ t2.name = b
      · obtain ⟨hn1, hn2⟩ := hc1
        have hm : meets a b mu = true := by
          simp [meets, hmu, hn1, hn2, hval.1, hval.2]
        rw [hid, hn1, hn2, hm]
        refine ⟨?_, ?_, ?_⟩
        · rw [h2hAddValid_left _ _ _ _ _ hab]
          simp
        · rw [h2hAddValid_left _ _ _ _ _ hab, h2hAddValid_right _ _ _ _ _ hab]
          by_cases hs : t2.score < t1.score <;> simp [hs] <;> omega
        · rw [h2hAddValid_hasPair]
          simp
      · by_cases hc2 : t1.name = b ∧ t2.name = a
        · obtain ⟨hn1, hn2⟩ := hc2
          have hm : meets a b mu = true := by
            simp [meets, hmu, hn1, hn2, hval.1, hval.2]
          rw [hid, hn1, hn2, hm]
          refine ⟨?_, ?_, ?_⟩
          · rw [h2hAddValid_right _ _ _ _ _ (Ne.symm hab)]
            simp
          · rw [h2hAddValid_right _ _ _ _ _ (Ne.symm hab),
              h2hAddValid_left _ _ _ _ _ (Ne.symm hab)]
            by_cases hs : t2.score < t1.score <;> simp [hs] <;> omega
          · rw [h2hAddValid_hasPair]
            simp
        · have hm : meets a b mu = false := by
            simp only [meets, hmu]
            rcases not_and_or.mp hc1 with hn | hn <;>
              rcases not_and_or.mp hc2 with hn' | hn' <;>
                simp [hn, hn']
          have hne1 : ¬(t1.name = a ∧ t2.name = b) := hc1
          have hne2 : ¬(t2.name = a ∧ t1.name = b) := fun h => hc2 ⟨h.2, h.1⟩
          have hne1' : ¬(t1.name = b ∧ t2.name = a) := hc2
          have hne2' : ¬(t2.name = b ∧ t1.name = a) := fun h => hc1 ⟨h.2, h.1⟩
          rw [hid, hm]
          refine ⟨?_, ?_, ?_⟩
          · rw [h2hAddValid_other _ _ _ _ _ _ _ hne1 hne2]
            simp
          · rw [h2hAddValid_other _ _ _ _ _ _ _ hne1 hne2,
              h2hAddValid_other _ _ _ _ _ _ _ hne1' hne2']
            simp
          · rw [h2hAddValid_hasPair]
            simp [hne1, hne2]
    · have hid : h2hAddMatchup m mu = m := by simp [h2hAddMatchup, hmu, hval]
      have hm : meets a b mu = false := by
        rcases not_and_or.mp hval with h | h <;> simp [meets, hmu, h]
      simp [hid, hm]
  · have hid : h2hAddMatchup m mu = m := by simp [h2hAddMatchup, hmu]
    have hm : meets a b mu = false := by simp [meets, hmu]
    simp [hid, hm]

theorem h2hFold_invariant (a b : String) (hab : a ≠ b) (ms : List Matchup) :
    ∀ m0 : H2HMap,
    (getRec (ms.foldl h2hAddMatchup m0) a b).games =
        (getRec m0 a b).games + ms.countP (meets a b) ∧
    (getRec (ms.foldl h2hAddMatchup m0) a b).wins +
        (getRec (ms.foldl h2hAddMatchup m0) b a).wins =
      (getRec m0 a b).wins + (getRec m0 b a).wins + ms.countP (meets a b) ∧
    hasPair (ms.foldl h2hAddMatchup m0) a b =
      (hasPair m0 a b || decide (0 < ms.countP (meets a b))) := by
  induction ms with
  | nil => intro m0; simp
  | cons mu rest ih =>
    intro m0
    obtain ⟨hg, hw, hp⟩ := h2hAddMatchup_step m0 mu a b hab
    obtain ⟨ihg, ihw, ihp⟩ := ih (h2hAddMatchup m0 mu)
    refine ⟨?_, ?_, ?_⟩
    · rw [List.foldl_cons, ihg, hg, List.countP_cons]
      by_cases hm : meets a b mu
      · simp only [hm, if_true]
        omega
      · simp only [hm, Bool.false_eq_true, if_false]
        omega
    · rw [List.foldl_cons, ihw, hw, List.countP_cons]
      by_cases hm : meets a b mu
      · simp only [hm, if_true]
        omega
      · simp only [hm, Bool.false_eq_true, if_false]
        omega
    · rw [List.foldl_cons, ihp, hp, List.countP_cons]
      by_cases hm : meets a b mu
      · by_cases hpar : hasPair m0 a b <;> simp [hm, hpar]
      · by_cases hpar : hasPair m0 a b <;> simp [hm, hpar]

theorem getRec_nil (a b : String) : getRec [] a b = emptyH2H := rfl

theorem hasPair_nil (a b : String) : hasPair [] a b = false := rfl

theorem h2hRecords_games (hd : List SeasonData) (a b : String) (hab : a ≠ b) :
    (getRec (h2hRecords hd) a b).games = metCount hd a b := by
  have h := (h2hFold_invariant a b hab (hd.flatMap (·.matchups)) []).1
  simpa [h2hRecords, metCount, getRec_nil, emptyH2H] using h

theorem h2hRecords_winsum (hd : List SeasonData) (a b : String) (hab : a ≠ b) :
    (getRec (h2hRecords hd) a b).wins + (getRec (h2hRecords hd) b a).wins =
      metCount hd a b := by
  have h := (h2hFold_invariant a b hab (hd.flatMap (·.matchups)) []).2.1
  simpa [h2hRecords, metCount, getRec_nil, emptyH2H] using h

theorem h2hRecords_hasPair (hd : List SeasonData) (a b : String) (hab : a ≠ b) :
    hasPair (h2hRecords hd) a b = decide (0 < metCount hd a b) := by
  have h := (h2hFold_invariant a b hab (hd.flatMap (·.matchups)) []).2.2
  simpa [h2hRecords, metCount, hasPair_nil] using h

theorem hasPair_mem_pairs (m : H2HMap) (a b : String)
    (h : hasPair m a b = true) : (a, b) ∈ h2hPairs m := by
  cases halg : alGet m a with
  | none => simp [hasPair, halg] at h
  | some inner =>
    simp only [hasPair, halg] at h
    cases hbl : alGet inner b with
    | none => simp [hbl] at h
    | some r =>
      have h1 : (a, inner) ∈ m := alGet_mem m a inner halg
      have h2 : (b, r) ∈ inner := alGet_mem inner b r hbl
      unfold h2hPairs
      rw [List.mem_flatMap]
      exact ⟨(a, inner), h1, by
        rw [List.mem_map]
        exact ⟨(b, r), h2, rfl⟩⟩

theorem mkH2HEntry_team1 (m : H2HMap) (t1 t2 : String) :
    (mkH2HEntry m t1 t2).team1 = t1 := rfl

theorem mkH2HEntry_team2 (m : H2HMap) (t1 t2 : String) :
    (mkH2HEntry m t1 t2).team2 = t2 := rfl

theorem h2hEmit_cons (m : H2HMap) (t1 t2 : String)
    (rest processed : List (String × String)) (acc : List H2HEntry) :
    h2hEmit m ((t1, t2) :: rest) processed acc =
      if t1 ≠ t2 then
        (if pairKey t1 t2 ∈ processed then h2hEmit m rest processed acc
         else if 0 < (getRec m t1 t2).games then
           h2hEmit m rest (pairKey t1 t2 :: processed)
             (acc ++ [mkH2HEntry m t1 t2])
         else h2hEmit m rest (pairKey t1 t2 :: processed) acc)
      else h2hEmit m rest processed acc := rfl

theorem h2hEmit_mem (m : H2HMap) :
    ∀ (pairs processed : List (String × String)) (acc : List H2HEntry)
      (e : H2HEntry), e ∈ h2hEmit m pairs processed acc →
      e ∈ acc ∨ ∃ t1 t2, t1 ≠ t2 ∧ 0 < (getRec m t1 t2).games ∧
        e = mkH2HEntry m t1 t2 := by
  intro pairs
  induction pairs with
  | nil => intro processed acc e he; exact Or.inl he
  | cons p rest ih =>
    intro processed acc e he
    obtain ⟨t1, t2⟩ := p
    rw [h2hEmit_cons] at he
    by_cases h12 : t1 ≠ t2
    · rw [if_pos h12] at he
      by_cases hproc : pairKey t1 t2 ∈ processed
      · rw [if_pos hproc] at he
        exact ih processed acc e he
      · rw [if_neg hproc] at he
        by_cases hg : 0 < (getRec m t1 t2).games
        · rw [if_pos hg] at he
          rcases ih _ _ e he with hacc | hrest
          · rcases List.mem_append.mp hacc with hacc' | hone
            · exact Or.inl hacc'
            · right
              exact ⟨t1, t2, h12, hg, by simpa using hone⟩
          · exact Or.inr hrest
        · rw [if_neg hg] at he
          exact ih _ _ e he
    · rw [if_neg h12] at he
      exact ih processed acc e he

theorem h2hEmit_countP (m : H2HMap) (a b : String) (hab : a ≠ b)
    (hsym : 0 < (getRec m a b).games ↔ 0 < (getRec m b a).games) :
    ∀ (pairs processed : List (String × String)) (acc : List H2HEntry),
    (h2hEmit m pairs processed acc).countP
        (fun e => decide (pairKey e.team1 e.team2 = pairKey a b)) =
      acc.countP (fun e => decide (pairKey e.team1 e.team2 = pairKey a b)) +
        (if pairKey a b ∈ processed then 0
         else if ((a, b) ∈ pairs ∨ (b, a) ∈ pairs) ∧
             0 < (getRec m a b).games then 1 else 0) := by
  intro pairs
  induction pairs with
  | nil =>
    intro processed acc
    by_cases hproc : pairKey a b ∈ processed <;> simp [h2hEmit, hproc]
  | cons p rest ih =>
    intro processed acc
    obtain ⟨t1, t2⟩ := p
    rw [h2hEmit_cons]
    by_cases h12 : t1 ≠ t2
    · rw [if_pos h12]
      by_cases hpk : pairKey t1 t2 = pairKey a b
      · -- the head names exactly the pair {a, b}
        have hor : (t1 = a ∧ t2 = b) ∨ (t1 = b ∧ t2 = a) := pairKey_unordered hpk
        have hgiff : 0 < (getRec m t1 t2).games ↔ 0 < (getRec m a b).games := by
          rcases hor with ⟨h1', h2'⟩ | ⟨h1', h2'⟩
          · rw [h1', h2']
          · rw [h1', h2']
            exact hsym.symm
        by_cases hproc : pairKey t1 t2 ∈ processed
        · rw [if_pos hproc, ih processed acc]
          have hprocab : pairKey a b ∈ processed := hpk ▸ hproc
          simp [hprocab]
        · rw [if_neg hproc]
          have hprocab : pairKey a b ∉ processed := fun hin => hproc (hpk ▸ hin)
          have hkey : pairKey a b ∈ pairKey t1 t2 :: processed := by
            rw [hpk]
            exact List.mem_cons_self _ _
          have hmem : (a, b) ∈ (t1, t2) :: rest ∨ (b, a) ∈ (t1, t2) :: rest := by
            rcases hor with ⟨h1', h2'⟩ | ⟨h1', h2'⟩
            · left
              rw [← h1', ← h2']
              exact List.mem_cons_self _ _
            · right
              rw [← h1', ← h2']
              exact List.mem_cons_self _ _
          by_cases hg : 0 < (getRec m t1 t2).games
          · rw [if_pos hg, ih _ _, if_pos hkey]
            have hcnt : (acc ++ [mkH2HEntry m t1 t2]).countP
                (fun e => decide (pairKey e.team1 e.team2 = pairKey a b)) =
              acc.countP
                (fun e => decide (pairKey e.team1 e.team2 = pairKey a b)) + 1 := by
              rw [List.countP_append]
              simp [mkH2HEntry_team1, mkH2HEntry_team2, hpk]
            rw [hcnt, if_neg hprocab, if_pos ⟨hmem, hgiff.mp hg⟩]
          · rw [if_neg hg, ih _ _, if_pos hkey]
            have hgz : ¬0 < (getRec m a b).games := fun hpos => hg (hgiff.mpr hpos)
            have : ¬(((a, b) ∈ (t1, t2) :: rest ∨ (b, a) ∈ (t1, t2) :: rest) ∧
                0 < (getRec m a b).games) := fun hq => hgz hq.2
            rw [if_neg hprocab, if_neg this]
      · -- the head names a different pair
        have hne1 : (a, b) ≠ (t1, t2) := by
          intro hq
          apply hpk
          cases hq
          rfl
        have hne2 : (b, a) ≠ (t1, t2) := by
          intro hq
          apply hpk
          cases hq
          exact pairKey_comm b a
        have hcond : (((a, b) ∈ (t1, t2) :: rest ∨ (b, a) ∈ (t1, t2) :: rest) ∧
            0 < (getRec m a b).games) ↔
            (((a, b) ∈ rest ∨ (b, a) ∈ rest) ∧ 0 < (getRec m a b).games) := by
          simp [List.mem_cons, hne1, hne2]
        by_cases hproc : pairKey t1 t2 ∈ processed
        · rw [if_pos hproc, ih processed acc]
          by_cases hprocab : pairKey a b ∈ processed
          · simp [hprocab]
          · rw [if_neg hprocab, if_neg hprocab, if_congr hcond rfl rfl]
        · rw [if_neg hproc]
          have hkne : (pairKey a b ∈ pairKey t1 t2 :: processed) ↔
              (pairKey a b ∈ processed) := by
            have hkk : pairKey a b ≠ pairKey t1 t2 := fun h => hpk h.symm
            simp [List.mem_cons, hkk]
          by_cases hg : 0 < (getRec m t1 t2).games
          · rw [if_pos hg, ih _ _]
            have hcnt : (acc ++ [mkH2HEntry m t1 t2]).countP
                (fun e => decide (pairKey e.team1 e.team2 = pairKey a b)) =
              acc.countP
                (fun e => decide (pairKey e.team1 e.team2 = pairKey a b)) := by
              rw [List.countP_append]
              simp [mkH2HEntry_team1, mkH2HEntry_team2, hpk]
            rw [hcnt]
            by_cases hprocab : pairKey a b ∈ processed
            · rw [if_pos (hkne.mpr hprocab), if_pos hprocab]
            · rw [if_neg (fun hin => hprocab (hkne.mp hin)), if_neg hprocab,
                if_congr hcond rfl rfl]
          · rw [if_neg hg, ih _ _]
            by_cases hprocab : pairKey a b ∈ processed
            · rw [if_pos (hkne.mpr hprocab), if_pos hprocab]
            · rw [if_neg (fun hin => hprocab (hkne.mp hin)), if_neg hprocab,
                if_congr hcond rfl rfl]
    · rw [if_neg h12, ih processed acc]
      have h12' : t1 = t2 := not_not.mp h12
      have hne1 : (a, b) ≠ (t1, t2) := by
        intro hq
        cases hq
        exact hab h12'
      have hne2 : (b, a) ≠ (t1, t2) := by
        intro hq
        cases hq
        exact hab h12'.symm
      by_cases hprocab : pairKey a b ∈ processed
      · simp [hprocab]
      · have hcond : (((a, b) ∈ (t1, t2) :: rest ∨ (b, a) ∈ (t1, t2) :: rest) ∧
            0 < (getRec m a b).games) ↔
            (((a, b) ∈ rest ∨ (b, a) ∈ rest) ∧ 0 < (getRec m a b).games) := by
          simp [List.mem_cons, hne1, hne2]
        rw [if_neg hprocab, if_neg hprocab, if_congr hcond rfl rfl]

theorem metCount_comm (hd : List SeasonData) (a b : String) :
    metCount hd a b = metCount hd b a := by
  unfold metCount
  exact List.countP_congr fun mu _ => by rw [meets_comm a b mu]

/-! ## Claim C1 — head-to-head de-duplication and series invariants -/

/-- C1: over any history, the head-to-head report has exactly one entry for
each unordered pair of distinct team display names that ever met in a valid
matchup (both scores strictly positive) and none for pairs that never did;
every entry's two win counts sum to its game count; and `series_leader` is
whichever side has strictly more wins, the literal `"Tied"` on equality. -/
theorem C1_head_to_head (hd : List SeasonData) (a b : String) (hab : a ≠ b) :
    (get_head_to_head_stats hd).countP
        (fun e => decide (pairKey e.team1 e.team2 = pairKey a b)) =
      (if 0 < metCount hd a b then 1 else 0) ∧
    (∀ e ∈ get_head_to_head_stats hd,
      e.team1_wins + e.team2_wins = e.total_games ∧
      e.series_leader =
        (if e.team2_wins < e.team1_wins then e.team1
         else if e.team1_wins < e.team2_wins then e.team2 else "Tied")) := by
  have hsym : 0 < (getRec (h2hRecords hd) a b).games ↔
      0 < (getRec (h2hRecords hd) b a).games := by
    rw [h2hRecords_games hd a b hab, h2hRecords_games hd b a (Ne.symm hab),
      metCount_comm hd a b]
  constructor
  · have hperm := sortBy_perm
      (fun x y : H2HEntry => decide (y.total_games ≤ x.total_games))
      (h2hEmit (h2hRecords hd) (h2hPairs (h2hRecords hd)) [] [])
    rw [get_head_to_head_stats, hperm.countP_eq,
      h2hEmit_countP (h2hRecords hd) a b hab hsym (h2hPairs (h2hRecords hd)) [] []]
    simp only [List.countP_nil, List.not_mem_nil, if_false, Nat.zero_add]
    by_cases hmc : 0 < metCount hd a b
    · have hgames : 0 < (getRec (h2hRecords hd) a b).games := by
        rw [h2hRecords_games hd a b hab]
        exact hmc
      have hmem : (a, b) ∈ h2hPairs (h2hRecords hd) := by
        apply hasPair_mem_pairs
        rw [h2hRecords_hasPair hd a b hab]
        simpa using hmc
      rw [if_pos ⟨Or.inl hmem, hgames⟩, if_pos hmc]
    · have hgames : ¬0 < (getRec (h2hRecords hd) a b).games := by
        rw [h2hRecords_games hd a b hab]
        exact hmc
      rw [if_neg (fun hq => hgames hq.2), if_neg hmc]
  · intro e he
    have hperm := sortBy_perm
      (fun x y : H2HEntry => decide (y.total_games ≤ x.total_games))
      (h2hEmit (h2hRecords hd) (h2hPairs (h2hRecords hd)) [] [])
    rw [get_head_to_head_stats] at he
    have he' := hperm.mem_iff.mp he
    rcases h2hEmit_mem (h2hRecords hd) _ _ _ e he' with hacc | ⟨t1, t2, h12, hg, rfl⟩
    · simp at hacc
    · constructor
      · show (getRec (h2hRecords hd) t1 t2).wins +
            (getRec (h2hRecords hd) t2 t1).wins =
          (getRec (h2hRecords hd) t1 t2).games
        rw [h2hRecords_winsum hd t1 t2 h12, h2hRecords_games hd t1 t2 h12]
      · rfl

/-- Witness for C1: one valid meeting of "Alpha" and "Beta" (150 vs 100 in
week 1) yields exactly one entry for the pair. -/
theorem C1_head_to_head_witness :
    ("Alpha" : String) ≠ "Beta" ∧
    metCount exHistory "Alpha" "Beta" = 1 ∧
    (get_head_to_head_stats exHistory).countP
        (fun e => decide (pairKey e.team1 e.team2 = pairKey "Alpha" "Beta")) =
      1 := by
  have hmc : metCount exHistory "Alpha" "Beta" = 1 := by
    norm_num [metCount, meets, List.countP_cons, exHistory, exAway, exHome]
  refine ⟨by decide, hmc, ?_⟩
  have h := (C1_head_to_head exHistory "Alpha" "Beta" (by decide)).1
  rw [hmc] at h
  simpa using h

/-! ## Claim C9 — drawn games are credited to the home side -/

/-- C9: in the head-to-head accumulation, a valid matchup whose two
participants post equal strictly positive scores is recorded as a win for
the second-listed (home) participant and a loss for the first-listed one —
never as a draw — and both directions' game counts still advance, which is
what keeps the two win counts summing to the game count. -/
theorem C9_tie_credited_to_home (m : H2HMap) (mu : Matchup)
    (t1 t2 : MatchupTeam) (hteams : mu.teams = [t1, t2])
    (hpos : 0 < t1.score) (heq : t1.score = t2.score)
    (hnames : t1.name ≠ t2.name) :
    (getRec (h2hAddMatchup m mu) t2.name t1.name).wins =
        (getRec m t2.name t1.name).wins + 1 ∧
    (getRec (h2hAddMatchup m mu) t1.name t2.name).wins =
        (getRec m t1.name t2.name).wins ∧
    (getRec (h2hAddMatchup m mu) t1.name t2.name).losses =
        (getRec m t1.name t2.name).losses + 1 ∧
    (getRec (h2hAddMatchup m mu) t1.name t2.name).games =
        (getRec m t1.name t2.name).games + 1 ∧
    (getRec (h2hAddMatchup m mu) t2.name t1.name).games =
        (getRec m t2.name t1.name).games + 1 := by
  have hval : 0 < t1.score ∧ 0 < t2.score := ⟨hpos, heq ▸ hpos⟩
  have hid : h2hAddMatchup m mu =
      h2hAddValid m t1.name t2.name t1.score t2.score := by
    simp [h2hAddMatchup, hteams, hval]
  have hs : ¬t2.score < t1.score := by
    rw [heq]
    exact lt_irrefl _
  rw [hid, h2hAddValid_left _ _ _ _ _ hnames, h2hAddValid_right _ _ _ _ _ hnames]
  simp [hs]

/-- Witness for C9: a 100-100 draw between "Alpha" (away) and "Beta" (home)
is recorded as a Beta win over Alpha, with no Alpha win. -/
theorem C9_tie_credited_to_home_witness :
    (getRec (h2hAddMatchup [] exTieMatchup) "Beta" "Alpha").wins =
      (getRec ([] : H2HMap) "Beta" "Alpha").wins + 1 ∧
    (getRec (h2hAddMatchup [] exTieMatchup) "Alpha" "Beta").wins =
      (getRec ([] : H2HMap) "Alpha" "Beta").wins := by
  have h := C9_tie_credited_to_home [] exTieMatchup exTieAway exTieHome
    rfl (by norm_num [exTieAway]) (by norm_num [exTieAway, exTieHome])
    (by decide)
  exact ⟨h.1, h.2.1⟩

/-! ## Payout integrality lemmas (for conservation) -/

theorem alSet_int {l : List (String × ℚ)} {k : String} {v : ℚ}
    (hl : ∀ p ∈ l, IsIntQ p.2) (hv : IsIntQ v) :
    ∀ p ∈ alSet l k v, IsIntQ p.2 := by
  induction l with
  | nil =>
    intro p hp
    simp only [alSet, List.mem_singleton] at hp
    subst hp
    exact hv
  | cons q rest ih =>
    intro p hp
    obtain ⟨k', w⟩ := q
    by_cases hk : k' = k
    · simp only [alSet, hk, if_pos] at hp
      rcases List.mem_cons.mp hp with rfl | hp'
      · exact hv
      · exact hl p (List.mem_cons_of_mem _ hp')
    · simp only [alSet, hk, if_false] at hp
      rcases List.mem_cons.mp hp with rfl | hp'
      · exact hl _ (List.mem_cons_self _ _)
      · exact ih (fun q hq => hl q (List.mem_cons_of_mem _ hq)) p hp'

theorem alGetD_int {l : List (String × ℚ)} {k : String}
    (hl : ∀ p ∈ l, IsIntQ p.2) : IsIntQ (alGetD l k 0) := by
  unfold alGetD
  cases h : alGet l k with
  | none => exact IsIntQ.zero
  | some v => exact hl (k, v) (alGet_mem l k v h)

theorem IsIntQ.payoutConsts :
    IsIntQ PAYOUT_CHAMPION ∧ IsIntQ PAYOUT_RUNNER_UP ∧
    IsIntQ PAYOUT_THIRD_PLACE ∧ IsIntQ PAYOUT_FOURTH_PLACE ∧
    IsIntQ PAYOUT_WEEKLY_HIGH ∧ IsIntQ PAYOUT_MOST_POINTS_REGULAR :=
  ⟨⟨300, by norm_num [PAYOUT_CHAMPION]⟩, ⟨150, by norm_num [PAYOUT_RUNNER_UP]⟩,
   ⟨70, by norm_num [PAYOUT_THIRD_PLACE]⟩, ⟨50, by norm_num [PAYOUT_FOURTH_PLACE]⟩,
   ⟨10, by norm_num [PAYOUT_WEEKLY_HIGH]⟩, ⟨40, by norm_num [PAYOUT_MOST_POINTS_REGULAR]⟩⟩

theorem addPayout_int {st : PayState} {owner : String} {amt : ℚ}
    {d : PayoutDetail} (hst : ∀ p ∈ st.payouts, IsIntQ p.2) (hamt : IsIntQ amt) :
    ∀ p ∈ (addPayout st owner amt d).payouts, IsIntQ p.2 := by
  unfold addPayout
  exact alSet_int hst ((alGetD_int hst).add hamt)

theorem payoutChampRunnerUp_int (sd : SeasonData) (st : PayState)
    (hst : ∀ p ∈ st.payouts, IsIntQ p.2) :
    ∀ p ∈ (payoutChampRunnerUp sd st).payouts, IsIntQ p.2 := by
  unfold payoutChampRunnerUp
  cases sd.champion with
  | none =>
    cases sd.runner_up with
    | none => exact hst
    | some r => exact addPayout_int hst IsIntQ.payoutConsts.2.1
  | some c =>
    cases sd.runner_up with
    | none => exact addPayout_int hst IsIntQ.payoutConsts.1
    | some r =>
      exact addPayout_int (addPayout_int hst IsIntQ.payoutConsts.1)
        IsIntQ.payoutConsts.2.1

theorem payoutThirdFourth_int (sd : SeasonData) (st : PayState)
    (hst : ∀ p ∈ st.payouts, IsIntQ p.2) :
    ∀ p ∈ (payoutThirdFourth sd st).payouts, IsIntQ p.2 := by
  unfold payoutThirdFourth
  by_cases hemp : sd.teams.isEmpty
  · simpa [hemp] using hst
  · simp only [hemp, Bool.false_eq_true, if_false]
    cases h2 : (payoutSortedTeams sd.teams)[2]? with
    | none =>
      cases h3 : (payoutSortedTeams sd.teams)[3]? with
      | none => exact hst
      | some t4 => exact addPayout_int hst IsIntQ.payoutConsts.2.2.2.1
    | some t3 =>
      cases h3 : (payoutSortedTeams sd.teams)[3]? with
      | none => exact addPayout_int hst IsIntQ.payoutConsts.2.2.1
      | some t4 =>
        exact addPayout_int (addPayout_int hst IsIntQ.payoutConsts.2.2.1)
          IsIntQ.payoutConsts.2.2.2.1

theorem payoutMostPoints_int (sd : SeasonData) (st : PayState)
    (hst : ∀ p ∈ st.payouts, IsIntQ p.2) :
    ∀ p ∈ (payoutMostPoints sd st).payouts, IsIntQ p.2 := by
  unfold payoutMostPoints
  cases h : maxKeyByValue (regularSeasonTotals sd) with
  | none => exact hst
  | some top => exact addPayout_int hst IsIntQ.payoutConsts.2.2.2.2.2

theorem weeklyFold_int (counts : List (String × Nat)) :
    ∀ pay : List (String × ℚ), (∀ p ∈ pay, IsIntQ p.2) →
      ∀ p ∈ counts.foldl
          (fun acc q => alSet acc q.1 (alGetD acc q.1 0 + q.2 * PAYOUT_WEEKLY_HIGH))
          pay, IsIntQ p.2 := by
  induction counts with
  | nil => intro pay hpay; exact hpay
  | cons c rest ih =>
    intro pay hpay
    rw [List.foldl_cons]
    refine ih _ (alSet_int hpay ((alGetD_int hpay).add ?_))
    exact ⟨c.2 * 10, by push_cast [PAYOUT_WEEKLY_HIGH]; ring⟩

theorem payoutWeekly_payouts (sd : SeasonData) (st : PayState) :
    (payoutWeekly sd st).payouts =
      ((weeklyHighs sd).foldl
        (fun acc p =>
          match p.2.owner with
          | some o => if o ≠ "" then alSet acc o (alGetD acc o 0 + 1) else acc
          | none => acc) ([] : List (String × Nat))).foldl
        (fun acc p => alSet acc p.1 (alGetD acc p.1 0 + p.2 * PAYOUT_WEEKLY_HIGH))
        st.payouts := rfl

theorem payoutWeekly_int (sd : SeasonData) (st : PayState)
    (hst : ∀ p ∈ st.payouts, IsIntQ p.2) :
    ∀ p ∈ (payoutWeekly sd st).payouts, IsIntQ p.2 := by
  rw [payoutWeekly_payouts]
  exact weeklyFold_int _ st.payouts hst

theorem seasonPayState_int (sd : SeasonData) :
    ∀ p ∈ (seasonPayState sd).payouts, IsIntQ p.2 := by
  unfold seasonPayState
  exact payoutWeekly_int _ _ (payoutMostPoints_int _ _ (payoutThirdFourth_int _ _
    (payoutChampRunnerUp_int _ _ (by intro p hp; simp at hp))))

theorem calcSeasonPayouts_total_def (sd : SeasonData) :
    (calcSeasonPayouts sd).season_total =
      round2 ((seasonPayState sd).payouts.map (fun p => p.2)).sum := rfl

theorem calcSeasonPayouts_payouts_def (sd : SeasonData) :
    (calcSeasonPayouts sd).payouts =
      sortBy (fun x y => decide (y.total_payout ≤ x.total_payout))
        ((seasonPayState sd).payouts.map (fun p =>
          { owner := p.1, total_payout := round2 p.2,
            details := alGetD (seasonPayState sd).details p.1 [] })) := rfl

theorem seasonPayState_sum_int (sd : SeasonData) :
    IsIntQ ((seasonPayState sd).payouts.map (fun p => p.2)).sum := by
  refine IsIntQ.sum ?_
  intro x hx
  obtain ⟨p, hp, rfl⟩ := List.mem_map.mp hx
  exact seasonPayState_int sd p hp

theorem calcSeasonPayouts_total_int (sd : SeasonData) :
    IsIntQ (calcSeasonPayouts sd).season_total := by
  rw [calcSeasonPayouts_total_def, (seasonPayState_sum_int sd).round2_eq]
  exact seasonPayState_sum_int sd

theorem mem_get_all_season_payouts (hd : List SeasonData) (cur : Int)
    (r : SeasonPayoutResult) (hr : r ∈ get_all_season_payouts hd cur) :
    ∃ sd, r = calcSeasonPayouts sd := by
  unfold get_all_season_payouts at hr
  have hr' := (sortBy_perm _ _).mem_iff.mp hr
  obtain ⟨sd, _, heq⟩ := List.mem_filterMap.mp hr'
  by_cases hlt : sd.season < cur
  · rw [if_pos hlt] at heq
    unfold calculate_season_payouts at heq
    cases hfind : hd.find? (fun x => decide (x.season = sd.season)) with
    | none => rw [hfind] at heq; simp at heq
    | some sd' =>
      rw [hfind] at heq
      simp only [Option.some.injEq] at heq
      exact ⟨sd', heq.symm⟩
  · rw [if_neg hlt] at heq
    simp at heq

/-! ## Claim C7 — conservation of money -/

/-- C7: for every season, the reported `season_total` equals the sum of the
individual owners' `total_payout` values, and `total_league_payouts`
reported by `get_cumulative_payouts` equals the sum of `season_total` over
every included completed season. -/
theorem C7_conservation :
    (∀ sd : SeasonData,
      (calcSeasonPayouts sd).season_total =
        ((calcSeasonPayouts sd).payouts.map (fun p => p.total_payout)).sum) ∧
    (∀ (hd : List SeasonData) (currentSeason : Int),
      (get_cumulative_payouts hd currentSeason).total_league_payouts =
        ((get_all_season_payouts hd currentSeason).map
          (fun s => s.season_total)).sum) := by
  constructor
  · intro sd
    rw [calcSeasonPayouts_total_def, calcSeasonPayouts_payouts_def]
    have hint := seasonPayState_int sd
    have hperm := sortBy_perm
      (fun x y : OwnerPayout => decide (y.total_payout ≤ x.total_payout))
      ((seasonPayState sd).payouts.map (fun p =>
        { owner := p.1, total_payout := round2 p.2,
          details := alGetD (seasonPayState sd).details p.1 [] }))
    rw [(hperm.map (fun p => p.total_payout)).sum_eq, List.map_map]
    have hmapeq : (seasonPayState sd).payouts.map
        ((fun p : OwnerPayout => p.total_payout) ∘ (fun p : String × ℚ =>
          ({ owner := p.1, total_payout := round2 p.2,
             details := alGetD (seasonPayState sd).details p.1 [] } :
            OwnerPayout))) =
        (seasonPayState sd).payouts.map (fun p => p.2) := by
      apply List.map_congr_left
      intro p hp
      simp only [Function.comp_apply]
      exact (hint p hp).round2_eq
    rw [hmapeq, (seasonPayState_sum_int sd).round2_eq]
  · intro hd cur
    have hproj : (get_cumulative_payouts hd cur).total_league_payouts =
        round2 ((get_all_season_payouts hd cur).map
          (fun s => s.season_total)).sum := rfl
    rw [hproj]
    have hsum : IsIntQ ((get_all_season_payouts hd cur).map
        (fun s => s.season_total)).sum := by
      refine IsIntQ.sum ?_
      intro x hx
      obtain ⟨r, hr, rfl⟩ := List.mem_map.mp hx
      obtain ⟨sd, rfl⟩ := mem_get_all_season_payouts hd cur r hr
      exact calcSeasonPayouts_total_int sd
    exact hsum.round2_eq

/-! ## Concrete evaluation lemmas for the payout scenario -/

theorem ownerName_teamA : ownerNameOfTeam teamA = "Alice" := by
  simp +decide [ownerNameOfTeam, payout_owner_name, teamA]

theorem ownerName_teamB : ownerNameOfTeam teamB = "Bob" := by
  simp +decide [ownerNameOfTeam, payout_owner_name, teamB]

theorem ownerName_teamC : ownerNameOfTeam teamC = "Carol" := by
  simp +decide [ownerNameOfTeam, payout_owner_name, teamC]

theorem ownerName_teamD : ownerNameOfTeam teamD = "Dave" := by
  simp +decide [ownerNameOfTeam, payout_owner_name, teamD]

theorem scenario_champ_step :
    payoutChampRunnerUp scenarioSeason { payouts := [], details := [] } =
      { payouts := [("Alice", 300), ("Bob", 150)],
        details :=
          [("Alice",
            [{ ptype := "Champion", amount := PAYOUT_CHAMPION,
               description := toString scenarioSeason.season ++ " League Champion" }]),
           ("Bob",
            [{ ptype := "Runner-Up", amount := PAYOUT_RUNNER_UP,
               description := toString scenarioSeason.season ++ " Runner-Up" }])] } := by
  simp +decide [payoutChampRunnerUp, scenarioSeason, addPayout, alGetD, alGet,
    alSet, ownerName_teamA, ownerName_teamB, PAYOUT_CHAMPION, PAYOUT_RUNNER_UP]

theorem scenario_sorted :
    payoutSortedTeams [teamA, teamB, teamC, teamD] =
      [teamA, teamB, teamC, teamD] := by
  simp +decide [payoutSortedTeams, sortBy, insertBy, teamA, teamB, teamC, teamD]

theorem scenario_third_fourth_step :
    payoutThirdFourth scenarioSeason
      { payouts := [("Alice", 300), ("Bob", 150)],
        details :=
          [("Alice",
            [{ ptype := "Champion", amount := PAYOUT_CHAMPION,
               description := toString scenarioSeason.season ++ " League Champion" }]),
           ("Bob",
            [{ ptype := "Runner-Up", amount := PAYOUT_RUNNER_UP,
               description := toString scenarioSeason.season ++ " Runner-Up" }])] } =
      { payouts := [("Alice", 300), ("Bob", 150), ("Carol", 70), ("Dave", 50)],
        details :=
          [("Alice",
            [{ ptype := "Champion", amount := PAYOUT_CHAMPION,
               description := toString scenarioSeason.season ++ " League Champion" }]),
           ("Bob",
            [{ ptype := "Runner-Up", amount := PAYOUT_RUNNER_UP,
               description := toString scenarioSeason.season ++ " Runner-Up" }]),
           ("Carol",
            [{ ptype := "3rd Place", amount := PAYOUT_THIRD_PLACE,
               description := toString scenarioSeason.season ++ " 3rd Place" }]),
           ("Dave",
            [{ ptype := "4th Place", amount := PAYOUT_FOURTH_PLACE,
               description := toString scenarioSeason.season ++ " 4th Place" }])] } := by
  simp +decide [payoutThirdFourth, scenarioSeason, scenario_sorted,
    List.getElem?_cons_zero, List.getElem?_cons_succ, addPayout, alGetD,
    alGet, alSet, ownerName_teamC, ownerName_teamD,
    PAYOUT_THIRD_PLACE, PAYOUT_FOURTH_PLACE]

theorem scenario_state :
    seasonPayState scenarioSeason =
      { payouts := [("Alice", 300), ("Bob", 150), ("Carol", 70), ("Dave", 50)],
        details :=
          [("Alice",
            [{ ptype := "Champion", amount := PAYOUT_CHAMPION,
               description := toString scenarioSeason.season ++ " League Champion" }]),
           ("Bob",
            [{ ptype := "Runner-Up", amount := PAYOUT_RUNNER_UP,
               description := toString scenarioSeason.season ++ " Runner-Up" }]),
           ("Carol",
            [{ ptype := "3rd Place", amount := PAYOUT_THIRD_PLACE,
               description := toString scenarioSeason.season ++ " 3rd Place" }]),
           ("Dave",
            [{ ptype := "4th Place", amount := PAYOUT_FOURTH_PLACE,
               description := toString scenarioSeason.season ++ " 4th Place" }])] } := by
  rw [seasonPayState, scenario_champ_step, scenario_third_fourth_step]
  simp [payoutMostPoints, payoutWeekly, weeklyHighs, regularSeasonTotals,
    maxKeyByValue, scenarioSeason]

theorem scenario_result :
    (calcSeasonPayouts scenarioSeason).payouts.map
        (fun p => (p.owner, p.total_payout)) =
      [("Alice", 300), ("Bob", 150), ("Carol", 70), ("Dave", 50)] ∧
    (calcSeasonPayouts scenarioSeason).season_total = 570 := by
  have h300 : round2 (300 : ℚ) = 300 := IsIntQ.round2_eq ⟨300, by norm_num⟩
  have h150 : round2 (150 : ℚ) = 150 := IsIntQ.round2_eq ⟨150, by norm_num⟩
  have h70 : round2 (70 : ℚ) = 70 := IsIntQ.round2_eq ⟨70, by norm_num⟩
  have h50 : round2 (50 : ℚ) = 50 := IsIntQ.round2_eq ⟨50, by norm_num⟩
  have h570 : round2 (570 : ℚ) = 570 := IsIntQ.round2_eq ⟨570, by norm_num⟩
  have hpay : (calcSeasonPayouts scenarioSeason).payouts =
      [{ owner := "Alice", total_payout := 300,
         details :=
           [{ ptype := "Champion", amount := PAYOUT_CHAMPION,
              description := toString scenarioSeason.season ++ " League Champion" }] },
       { owner := "Bob", total_payout := 150,
         details :=
           [{ ptype := "Runner-Up", amount := PAYOUT_RUNNER_UP,
              description := toString scenarioSeason.season ++ " Runner-Up" }] },
       { owner := "Carol", total_payout := 70,
         details :=
           [{ ptype := "3rd Place", amount := PAYOUT_THIRD_PLACE,
              description := toString scenarioSeason.season ++ " 3rd Place" }] },
       { owner := "Dave", total_payout := 50,
         details :=
           [{ ptype := "4th Place", amount := PAYOUT_FOURTH_PLACE,
              description := toString scenarioSeason.season ++ " 4th Place" }] }] := by
    rw [calcSeasonPayouts_payouts_def, scenario_state]
    simp +decide only [List.map_cons, List.map_nil, alGetD, alGet,
      h300, h150, h70, h50]
  refine ⟨?_, ?_⟩
  · rw [hpay]
    norm_num
  · rw [calcSeasonPayouts_total_def, scenario_state]
    norm_num [h570]

/-! ## Ledger-line placement lemmas (for third/fourth place) -/

theorem addPayout_detail_mono {st : PayState} {o o' : String} {amt : ℚ}
    {d x : PayoutDetail} (hx : x ∈ alGetD st.details o' []) :
    x ∈ alGetD (addPayout st o amt d).details o' [] := by
  show x ∈ alGetD (alSet st.details o (alGetD st.details o [] ++ [d])) o' []
  by_cases h : o = o'
  · subst h
    rw [alGetD_alSet_same]
    exact List.mem_append_left _ hx
  · rw [alGetD_alSet_ne _ _ _ _ _ h]
    exact hx

theorem addPayout_detail_self (st : PayState) (o : String) (amt : ℚ)
    (d : PayoutDetail) : d ∈ alGetD (addPayout st o amt d).details o [] := by
  show d ∈ alGetD (alSet st.details o (alGetD st.details o [] ++ [d])) o []
  rw [alGetD_alSet_same]
  exact List.mem_append_right _ (List.mem_singleton.mpr rfl)

theorem payoutMostPoints_detail_mono (sd : SeasonData) {st : PayState}
    {o : String} {x : PayoutDetail} (hx : x ∈ alGetD st.details o []) :
    x ∈ alGetD (payoutMostPoints sd st).details o [] := by
  unfold payoutMostPoints
  cases maxKeyByValue (regularSeasonTotals sd) with
  | none => exact hx
  | some top => exact addPayout_detail_mono hx

theorem detailFold_mono (counts : List (String × Nat)) :
    ∀ (dm : List (String × List PayoutDetail)) (o : String) (x : PayoutDetail),
      x ∈ alGetD dm o [] →
      x ∈ alGetD
        (counts.foldl
          (fun acc p =>
            alSet acc p.1 (alGetD acc p.1 [] ++
              [{ ptype := "Weekly High Scores",
                 amount := p.2 * PAYOUT_WEEKLY_HIGH,
                 description :=
                   toString p.2 ++ " Weekly High Scores x $10" }]))
          dm) o [] := by
  induction counts with
  | nil => intro dm o x hx; exact hx
  | cons c rest ih =>
    intro dm o x hx
    rw [List.foldl_cons]
    refine ih _ o x ?_
    by_cases h : c.1 = o
    · rw [← h] at hx ⊢
      rw [alGetD_alSet_same]
      exact List.mem_append_left _ hx
    · rw [alGetD_alSet_ne _ _ _ _ _ h]
      exact hx

theorem payoutWeekly_details (sd : SeasonData) (st : PayState) :
    (payoutWeekly sd st).details =
      ((weeklyHighs sd).foldl
        (fun acc p =>
          match p.2.owner with
          | some o => if o ≠ "" then alSet acc o (alGetD acc o 0 + 1) else acc
          | none => acc) ([] : List (String × Nat))).foldl
        (fun acc p =>
          alSet acc p.1 (alGetD acc p.1 [] ++
            [{ ptype := "Weekly High Scores",
               amount := p.2 * PAYOUT_WEEKLY_HIGH,
               description := toString p.2 ++ " Weekly High Scores x $10" }]))
        st.details := rfl

theorem payoutWeekly_detail_mono (sd : SeasonData) {st : PayState}
    {o : String} {x : PayoutDetail} (hx : x ∈ alGetD st.details o []) :
    x ∈ alGetD (payoutWeekly sd st).details o [] := by
  rw [payoutWeekly_details]
  exact detailFold_mono _ st.details o x hx

theorem payoutThirdFourth_third_detail (sd : SeasonData) (st : PayState)
    (w : Team) (hne : sd.teams.isEmpty = false)
    (h2 : (payoutSortedTeams sd.teams)[2]? = some w) :
    { ptype := "3rd Place", amount := PAYOUT_THIRD_PLACE,
      description := toString sd.season ++ " 3rd Place" } ∈
      alGetD (payoutThirdFourth sd st).details (ownerNameOfTeam w) [] := by
  unfold payoutThirdFourth
  rw [hne]
  simp only [Bool.false_eq_true, if_false, h2]
  cases h3 : (payoutSortedTeams sd.teams)[3]? with
  | none => exact addPayout_detail_self _ _ _ _
  | some t4 => exact addPayout_detail_mono (addPayout_detail_self _ _ _ _)

theorem payoutThirdFourth_fourth_detail (sd : SeasonData) (st : PayState)
    (w3 w : Team) (hne : sd.teams.isEmpty = false)
    (h2 : (payoutSortedTeams sd.teams)[2]? = some w3)
    (h3 : (payoutSortedTeams sd.teams)[3]? = some w) :
    { ptype := "4th Place", amount := PAYOUT_FOURTH_PLACE,
      description := toString sd.season ++ " 4th Place" } ∈
      alGetD (payoutThirdFourth sd st).details (ownerNameOfTeam w) [] := by
  unfold payoutThirdFourth
  rw [hne]
  simp only [Bool.false_eq_true, if_false, h2, h3]
  exact addPayout_detail_self _ _ _ _

theorem sortBy_rank_pos_two (teams : List Team)
    (hdist : teams.Pairwise (fun t u => t.final_rank ≠ u.final_rank))
    (h3 : 3 ≤ teams.length) :
    ∃ w, (payoutSortedTeams teams)[2]? = some w ∧ w ∈ teams ∧
      teams.countP (fun u => decide (u.final_rank < w.final_rank)) = 2 := by
  have hperm := sortBy_perm
    (fun a b : Team => decide (a.final_rank ≤ b.final_rank)) teams
  have hpair := sortBy_pairwise
    (fun a b : Team => decide (a.final_rank ≤ b.final_rank))
    (by intro a b hab; simp at hab ⊢; omega)
    (by intro a b c hab hbc; simp at hab hbc ⊢; omega) teams
  have hdist' : (sortBy (fun a b : Team => decide (a.final_rank ≤ b.final_rank))
      teams).Pairwise (fun t u => t.final_rank ≠ u.final_rank) :=
    (hperm.pairwise_iff (fun h => h.symm)).mpr hdist
  have hstrict : (sortBy (fun a b : Team => decide (a.final_rank ≤ b.final_rank))
      teams).Pairwise (fun t u => t.final_rank < u.final_rank) := by
    refine (hpair.and hdist').imp ?_
    intro t u ⟨hle, hneq⟩
    simp at hle
    omega
  have hlen := hperm.length_eq
  rcases hl : sortBy (fun a b : Team => decide (a.final_rank ≤ b.final_rank))
      teams with _ | ⟨x, _ | ⟨v, _ | ⟨w, rest⟩⟩⟩
  · rw [hl] at hlen; simp at hlen; omega
  · rw [hl] at hlen; simp at hlen; omega
  · rw [hl] at hlen; simp at hlen; omega
  · rw [hl] at hperm hstrict
    refine ⟨w, by simp [payoutSortedTeams, hl], hperm.mem_iff.mp (by simp), ?_⟩
    rw [← hperm.countP_eq]
    rcases List.pairwise_cons.mp hstrict with ⟨hx, hrest1⟩
    rcases List.pairwise_cons.mp hrest1 with ⟨hv, hrest2⟩
    rcases List.pairwise_cons.mp hrest2 with ⟨hw, _⟩
    have hxw : x.final_rank < w.final_rank := hx w (by simp)
    have hvw : v.final_rank < w.final_rank := hv w (by simp)
    have hzero : rest.countP (fun u => decide (u.final_rank < w.final_rank)) = 0 := by
      rw [List.countP_eq_zero]
      intro u hu
      have := hw u hu
      simp
      omega
    simp [List.countP_cons, hxw, hvw, hzero]

theorem sortBy_rank_pos_three (teams : List Team)
    (hdist : teams.Pairwise (fun t u => t.final_rank ≠ u.final_rank))
    (h4 : 4 ≤ teams.length) :
    ∃ w, (payoutSortedTeams teams)[3]? = some w ∧ w ∈ teams ∧
      teams.countP (fun u => decide (u.final_rank < w.final_rank)) = 3 := by
  have hperm := sortBy_perm
    (fun a b : Team => decide (a.final_rank ≤ b.final_rank)) teams
  have hpair := sortBy_pairwise
    (fun a b : Team => decide (a.final_rank ≤ b.final_rank))
    (by intro a b hab; simp at hab ⊢; omega)
    (by intro a b c hab hbc; simp at hab hbc ⊢; omega) teams
  have hdist' : (sortBy (fun a b : Team => decide (a.final_rank ≤ b.final_rank))
      teams).Pairwise (fun t u => t.final_rank ≠ u.final_rank) :=
    (hperm.pairwise_iff (fun h => h.symm)).mpr hdist
  have hstrict : (sortBy (fun a b : Team => decide (a.final_rank ≤ b.final_rank))
      teams).Pairwise (fun t u => t.final_rank < u.final_rank) := by
    refine (hpair.and hdist').imp ?_
    intro t u ⟨hle, hneq⟩
    simp at hle
    omega
  have hlen := hperm.length_eq
  rcases hl : sortBy (fun a b : Team => decide (a.final_rank ≤ b.final_rank))
      teams with _ | ⟨x, _ | ⟨v, _ | ⟨w, _ | ⟨y, rest⟩⟩⟩⟩
  · rw [hl] at hlen; simp at hlen; omega
  · rw [hl] at hlen; simp at hlen; omega
  · rw [hl] at hlen; simp at hlen; omega
  · rw [hl] at hlen; simp at hlen; omega
  · rw [hl] at hperm hstrict
    refine ⟨y, by simp [payoutSortedTeams, hl], hperm.mem_iff.mp (by simp), ?_⟩
    rw [← hperm.countP_eq]
    rcases List.pairwise_cons.mp hstrict with ⟨hx, hrest1⟩
    rcases List.pairwise_cons.mp hrest1 with ⟨hv, hrest2⟩
    rcases List.pairwise_cons.mp hrest2 with ⟨hw, hrest3⟩
    rcases List.pairwise_cons.mp hrest3 with ⟨hy, _⟩
    have hxy : x.final_rank < y.final_rank := hx y (by simp)
    have hvy : v.final_rank < y.final_rank := hv y (by simp)
    have hwy : w.final_rank < y.final_rank := hw y (by simp)
    have hzero : rest.countP (fun u => decide (u.final_rank < y.final_rank)) = 0 := by
      rw [List.countP_eq_zero]
      intro u hu
      have := hy u hu
      simp
      omega
    simp [List.countP_cons, hxy, hvy, hwy, hzero]

theorem cex_champ_step :
    payoutChampRunnerUp cexRankZeroSeason { payouts := [], details := [] } =
      { payouts := [("Alice", 300), ("Bob", 150)],
        details :=
          [("Alice",
            [{ ptype := "Champion", amount := PAYOUT_CHAMPION,
               description :=
                 toString cexRankZeroSeason.season ++ " League Champion" }]),
           ("Bob",
            [{ ptype := "Runner-Up", amount := PAYOUT_RUNNER_UP,
               description :=
                 toString cexRankZeroSeason.season ++ " Runner-Up" }])] } := by
  simp +decide [payoutChampRunnerUp, cexRankZeroSeason, addPayout, alGetD,
    alGet, alSet, ownerName_teamA, ownerName_teamB, PAYOUT_CHAMPION,
    PAYOUT_RUNNER_UP]

theorem cex_sorted :
    payoutSortedTeams [teamE0, teamA, teamB, teamC, teamD] =
      [teamE0, teamA, teamB, teamC, teamD] := by
  simp +decide [payoutSortedTeams, sortBy, insertBy, teamE0, teamA, teamB,
    teamC, teamD]

theorem cex_state :
    seasonPayState cexRankZeroSeason =
      { payouts := [("Alice", 300), ("Bob", 220), ("Carol", 50)],
        details :=
          [("Alice",
            [{ ptype := "Champion", amount := PAYOUT_CHAMPION,
               description :=
                 toString cexRankZeroSeason.season ++ " League Champion" }]),
           ("Bob",
            [{ ptype := "Runner-Up", amount := PAYOUT_RUNNER_UP,
               description :=
                 toString cexRankZeroSeason.season ++ " Runner-Up" },
             { ptype := "3rd Place", amount := PAYOUT_THIRD_PLACE,
               description :=
                 toString cexRankZeroSeason.season ++ " 3rd Place" }]),
           ("Carol",
            [{ ptype := "4th Place", amount := PAYOUT_FOURTH_PLACE,
               description :=
                 toString cexRankZeroSeason.season ++ " 4th Place" }])] } := by
  rw [seasonPayState, cex_champ_step]
  have hstep : payoutThirdFourth cexRankZeroSeason
      { payouts := [("Alice", 300), ("Bob", 150)],
        details :=
          [("Alice",
            [{ ptype := "Champion", amount := PAYOUT_CHAMPION,
               description :=
                 toString cexRankZeroSeason.season ++ " League Champion" }]),
           ("Bob",
            [{ ptype := "Runner-Up", amount := PAYOUT_RUNNER_UP,
               description :=
                 toString cexRankZeroSeason.season ++ " Runner-Up" }])] } =
      { payouts := [("Alice", 300), ("Bob", 220), ("Carol", 50)],
        details :=
          [("Alice",
            [{ ptype := "Champion", amount := PAYOUT_CHAMPION,
               description :=
                 toString cexRankZeroSeason.season ++ " League Champion" }]),
           ("Bob",
            [{ ptype := "Runner-Up", amount := PAYOUT_RUNNER_UP,
               description :=
                 toString cexRankZeroSeason.season ++ " Runner-Up" },
             { ptype := "3rd Place", amount := PAYOUT_THIRD_PLACE,
               description :=
                 toString cexRankZeroSeason.season ++ " 3rd Place" }]),
           ("Carol",
            [{ ptype := "4th Place", amount := PAYOUT_FOURTH_PLACE,
               description :=
                 toString cexRankZeroSeason.season ++ " 4th Place" }])] } := by
    simp +decide only [payoutThirdFourth, cexRankZeroSeason, cex_sorted,
      List.getElem?_cons_zero, List.getElem?_cons_succ, addPayout, alGetD,
      alGet, alSet, ownerName_teamB, ownerName_teamC, List.isEmpty_cons,
      List.append_nil, List.nil_append, List.cons_append]
    norm_num [PAYOUT_THIRD_PLACE, PAYOUT_FOURTH_PLACE, ownerName_teamB,
      ownerName_teamC]
  rw [hstep]
  simp [payoutMostPoints, payoutWeekly, weeklyHighs, regularSeasonTotals,
    maxKeyByValue, cexRankZeroSeason]

/-! ## Claim C6 — third and fourth place -/

/-- C6 counterexample: in a season holding a team with stored final rank 0
(unknown) and playoff seed 5 next to teams ranked 1-4, the claim's rule
("ranked 3rd by final rank, falling back to playoff seed when final rank is
absent") awards the $70 third-place amount to Carol, the owner of the
rank-3 team; the code instead sorts the stored rank 0 first and pays the
third-place amount to Bob, the owner of the rank-2 team — Carol receives
only the $50 fourth-place amount and no third-place ledger line. -/
theorem C6_counterexample :
    alGetD (seasonPayState cexRankZeroSeason).payouts "Bob" 0 = 220 ∧
    alGetD (seasonPayState cexRankZeroSeason).payouts "Carol" 0 = 50 ∧
    ({ ptype := "3rd Place", amount := PAYOUT_THIRD_PLACE,
       description := toString cexRankZeroSeason.season ++ " 3rd Place" } :
        PayoutDetail) ∈
      alGetD (seasonPayState cexRankZeroSeason).details "Bob" [] ∧
    ({ ptype := "3rd Place", amount := PAYOUT_THIRD_PLACE,
       description := toString cexRankZeroSeason.season ++ " 3rd Place" } :
        PayoutDetail) ∉
      alGetD (seasonPayState cexRankZeroSeason).details "Carol" [] := by
  rw [cex_state]
  refine ⟨?_, ?_, ?_, ?_⟩
  · simp +decide [alGetD, alGet]
  · simp +decide [alGetD, alGet]
  · simp +decide [alGetD, alGet]
  · simp +decide [alGetD, alGet, PAYOUT_THIRD_PLACE, PAYOUT_FOURTH_PLACE]

/-- C6 (amended): `calculate_season_payouts` sorts teams by the stored final
rank ascending (a stored rank of 0, meaning unknown, sorts before every real
rank; the playoff-seed fallback written in the code never applies because
canonical records always carry a final rank).  Hence, when stored final
ranks are pairwise distinct, a season with at least 3 (resp. 4) teams awards
the third- (resp. fourth-) place amount to the owner of the team with
exactly 2 (resp. 3) teams of strictly smaller stored rank; in particular the
rank-{1,2,3,4} scenario yields exactly four ledger rows, one per owner,
totaling 570. -/
theorem C6_third_fourth_place (sd : SeasonData)
    (hdist : sd.teams.Pairwise (fun t u => t.final_rank ≠ u.final_rank)) :
    (3 ≤ sd.teams.length →
      ∃ t ∈ sd.teams,
        sd.teams.countP (fun u => decide (u.final_rank < t.final_rank)) = 2 ∧
        { ptype := "3rd Place", amount := PAYOUT_THIRD_PLACE,
          description := toString sd.season ++ " 3rd Place" } ∈
          alGetD (seasonPayState sd).details (ownerNameOfTeam t) []) ∧
    (4 ≤ sd.teams.length →
      ∃ t ∈ sd.teams,
        sd.teams.countP (fun u => decide (u.final_rank < t.final_rank)) = 3 ∧
        { ptype := "4th Place", amount := PAYOUT_FOURTH_PLACE,
          description := toString sd.season ++ " 4th Place" } ∈
          alGetD (seasonPayState sd).details (ownerNameOfTeam t) []) ∧
    (calcSeasonPayouts scenarioSeason).payouts.map
        (fun p => (p.owner, p.total_payout)) =
      [("Alice", 300), ("Bob", 150), ("Carol", 70), ("Dave", 50)] ∧
    (calcSeasonPayouts scenarioSeason).season_total = 570 := by
  have hnonempty : ∀ n, n ≤ sd.teams.length → 3 ≤ n →
      sd.teams.isEmpty = false := by
    intro n hn h3
    cases hte : sd.teams with
    | nil => rw [hte] at hn; simp at hn; omega
    | cons t rest => simp
  refine ⟨?_, ?_, scenario_result.1, scenario_result.2⟩
  · intro h3
    obtain ⟨w, h2, hwmem, hwcount⟩ := sortBy_rank_pos_two sd.teams hdist h3
    refine ⟨w, hwmem, hwcount, ?_⟩
    unfold seasonPayState
    exact payoutWeekly_detail_mono sd (payoutMostPoints_detail_mono sd
      (payoutThirdFourth_third_detail sd _ w
        (hnonempty 3 h3 (by omega)) h2))
  · intro h4
    obtain ⟨w3, h2, _, _⟩ := sortBy_rank_pos_two sd.teams hdist (by omega)
    obtain ⟨w, h3, hwmem, hwcount⟩ := sortBy_rank_pos_three sd.teams hdist h4
    refine ⟨w, hwmem, hwcount, ?_⟩
    unfold seasonPayState
    exact payoutWeekly_detail_mono sd (payoutMostPoints_detail_mono sd
      (payoutThirdFourth_fourth_detail sd _ w3 w
        (hnonempty 4 h4 (by omega)) h2 h3))

/-- Witness for C6: the rank-{1,2,3,4} scenario — Carol (3rd-smallest rank)
holds the third-place ledger line, and the season ledger is four rows
totaling 570. -/
theorem C6_third_fourth_place_witness :
    (∃ t ∈ scenarioSeason.teams,
      scenarioSeason.teams.countP
          (fun u => decide (u.final_rank < t.final_rank)) = 2 ∧
      { ptype := "3rd Place", amount := PAYOUT_THIRD_PLACE,
        description := toString scenarioSeason.season ++ " 3rd Place" } ∈
        alGetD (seasonPayState scenarioSeason).details (ownerNameOfTeam t) []) ∧
    (calcSeasonPayouts scenarioSeason).payouts.map
        (fun p => (p.owner, p.total_payout)) =
      [("Alice", 300), ("Bob", 150), ("Carol", 70), ("Dave", 50)] ∧
    (calcSeasonPayouts scenarioSeason).season_total = 570 := by
  have h := C6_third_fourth_place scenarioSeason (by decide)
  exact ⟨h.1 (by decide), h.2.2.1, h.2.2.2⟩

/-! ## Claim C8 — seasons with no matchups -/

/-- C8 counterexample: when every season's matchup list is empty (here a
single such season), `get_scoring_stats` reports the structured error value
`"No scoring data available"` rather than zero-valued results. -/
theorem C8_counterexample :
    get_scoring_stats [emptyMatchupSeason] =
      .err "No scoring data available" := rfl

/-- C8 (amended): a season with an empty matchup list never raises and
contributes nothing to the matchup-dependent reports: removing it leaves
`get_scoring_stats` and `get_season_stats` unchanged (season stats omit it
entirely) and leaves every score aggregate of the dashboard summary
unchanged; when no valid scored entry exists in the whole collection,
`get_scoring_stats` returns the structured error value instead of scores. -/
theorem C8_empty_matchup_season (pre post : List SeasonData) (s : SeasonData)
    (hs : s.matchups = []) :
    get_scoring_stats (pre ++ s :: post) = get_scoring_stats (pre ++ post) ∧
    get_season_stats (pre ++ s :: post) = get_season_stats (pre ++ post) ∧
    (get_dashboard_summary (pre ++ s :: post)).total_games =
      (get_dashboard_summary (pre ++ post)).total_games ∧
    (get_dashboard_summary (pre ++ s :: post)).highest_score_ever =
      (get_dashboard_summary (pre ++ post)).highest_score_ever ∧
    (get_dashboard_summary (pre ++ s :: post)).lowest_score_ever =
      (get_dashboard_summary (pre ++ post)).lowest_score_ever ∧
    (get_dashboard_summary (pre ++ s :: post)).average_score =
      (get_dashboard_summary (pre ++ post)).average_score ∧
    (∀ hd : List SeasonData, allScoreRecords hd = [] →
      get_scoring_stats hd = .err "No scoring data available") := by
  have hrec : allScoreRecords (pre ++ s :: post) = allScoreRecords (pre ++ post) := by
    simp [allScoreRecords, hs]
  have hval : allValidScores (pre ++ s :: post) = allValidScores (pre ++ post) := by
    simp [allValidScores, hs]
  have hsf : seasonStatsFor s = none := by
    simp [seasonStatsFor, hs]
  refine ⟨?_, ?_, ?_, ?_, ?_, ?_, ?_⟩
  · simp only [get_scoring_stats, hrec]
  · simp [get_season_stats, List.filterMap_append, List.filterMap_cons, hsf]
  · simp [get_dashboard_summary, hs]
  · simp only [get_dashboard_summary, hval]
  · simp only [get_dashboard_summary, hval]
  · simp only [get_dashboard_summary, hval]
  · intro hd h
    simp [get_scoring_stats, h]

/-- Witness for C8: the one-team, zero-matchup season is dropped from the
season stats, adds no games to the dashboard summary, and alone in the
collection produces the structured scoring-stats error value. -/
theorem C8_empty_matchup_season_witness :
    get_season_stats [emptyMatchupSeason] = get_season_stats [] ∧
    (get_dashboard_summary [emptyMatchupSeason]).total_games =
      (get_dashboard_summary []).total_games ∧
    get_scoring_stats [emptyMatchupSeason] = .err "No scoring data available" := by
  have h := C8_empty_matchup_season [] [] emptyMatchupSeason rfl
  exact ⟨h.2.1, h.2.2.1, h.2.2.2.2.2.2 [emptyMatchupSeason] rfl⟩
